import Mathlib

set_option maxRecDepth 100000

/-!
Formal model of the ants-platform-js SDK core, embedded shallowly in Lean.

The development covers:

* the JavaScript string/text primitives the SDK relies on (UTF-16 code units,
  `String.prototype.trim`, `String.prototype.slice`, WHATWG `TextEncoder`);
* the BLAKE2b hash (the `@noble/hashes` dependency, RFC 7693) at configurable
  digest length, and the two copies of `generateAgentId` / `blake2b64` found in
  the repository (`agent-context` module and `packages/otel/src/span-processor.ts`);
* the pure attribute-building functions of `packages/tracing/src/attributes.ts`;
* the tracer-provider slot of the tracing package (`setAntsPlatformTracerProvider`
  / `getAntsPlatformTracerProvider`);
* the per-span processing pipeline of `AntsPlatformSpanProcessor`
  (`onStart`, `applyMask`, `applyMaskInPlace`, `processEndedSpan`) as pure
  functions over an attribute map, with an event trace recording the calls made
  to the externally supplied mask, predicate, media service and wrapped exporter;
* a small-step cooperative-concurrency model of the processor's pending-operation
  bookkeeping (`onEnd` promise registration, settlement, `forceFlush`/`shutdown`
  staging), faithful to the `async`/`await` structure of the source.

JavaScript strings are modelled as lists of UTF-16 code units (`JSString`),
machine-independent integers as `Nat` with explicit reduction modulo `2 ^ 64`
where the source's 64-bit words overflow.
-/

/-! ## JavaScript string primitives -/

/-- A JavaScript string: a finite sequence of UTF-16 code units. -/
abbrev JSString := List Nat

/-- Code units of a Lean string literal, for writing concrete JS strings.
All concrete inputs used below are ASCII, where code points and UTF-16 code
units coincide. -/
def jsStr (s : String) : JSString := s.data.map Char.toNat

/-- The WhiteSpace and LineTerminator code points recognised by
`String.prototype.trim` (ECMA-262). -/
def isJsWhitespace (u : Nat) : Bool :=
  u == 0x09 || u == 0x0A || u == 0x0B || u == 0x0C || u == 0x0D || u == 0x20 ||
  u == 0xA0 || u == 0x1680 || (0x2000 ≤ u && u ≤ 0x200A) || u == 0x2028 ||
  u == 0x2029 || u == 0x202F || u == 0x205F || u == 0x3000 || u == 0xFEFF

/-- JavaScript `String.prototype.trim`: strip leading and trailing whitespace
code units. -/
def jsTrim (s : JSString) : JSString :=
  ((s.dropWhile isJsWhitespace).reverse.dropWhile isJsWhitespace).reverse

/-- First half of a surrogate pair (U+D800 to U+DBFF). -/
def isHighSurrogate (u : Nat) : Bool := 0xD800 ≤ u && u < 0xDC00

/-- Second half of a surrogate pair (U+DC00 to U+DFFF). -/
def isLowSurrogate (u : Nat) : Bool := 0xDC00 ≤ u && u < 0xE000

/-- Decode UTF-16 code units to Unicode code points the way WHATWG encoding
does for `TextEncoder`: well-formed surrogate pairs combine, and every lone
surrogate becomes U+FFFD (replacement character). -/
def utf16Decode : List Nat → List Nat
  | [] => []
  | u :: rest =>
    if isHighSurrogate u then
      match rest with
      | v :: rest2 =>
        if isLowSurrogate v then
          (0x10000 + (u - 0xD800) * 0x400 + (v - 0xDC00)) :: utf16Decode rest2
        else 0xFFFD :: utf16Decode (v :: rest2)
      | [] => [0xFFFD]
    else if isLowSurrogate u then 0xFFFD :: utf16Decode rest
    else u :: utf16Decode rest

/-- UTF-8 encoding of one Unicode code point. -/
def utf8EncodeCp (c : Nat) : List Nat :=
  if c < 0x80 then [c]
  else if c < 0x800 then [0xC0 ||| (c >>> 6), 0x80 ||| (c &&& 0x3F)]
  else if c < 0x10000 then
    [0xE0 ||| (c >>> 12), 0x80 ||| ((c >>> 6) &&& 0x3F), 0x80 ||| (c &&& 0x3F)]
  else
    [0xF0 ||| (c >>> 18), 0x80 ||| ((c >>> 12) &&& 0x3F), 0x80 ||| ((c >>> 6) &&& 0x3F),
     0x80 ||| (c &&& 0x3F)]

/-- WHATWG `TextEncoder.prototype.encode`: UTF-16 decode (with replacement of
lone surrogates), then UTF-8 encode each code point. -/
def textEncoderEncode (units : JSString) : List Nat :=
  ((utf16Decode units).map utf8EncodeCp).flatten

/-! ## BLAKE2b (RFC 7693), the `@noble/hashes` dependency

64-bit words are `Nat` values kept below `2 ^ 64`; every addition, rotation and
shift reduces modulo `2 ^ 64` exactly where a 64-bit register would overflow. -/

/-- The 64-bit modulus. -/
def W64 : Nat := 2 ^ 64

/-- 64-bit addition. -/
def add64 (a b : Nat) : Nat := (a + b) % W64

/-- 64-bit exclusive or (stays below `2 ^ 64` for inputs below it). -/
def xor64 (a b : Nat) : Nat := a ^^^ b

/-- 64-bit rotate right by `n` (for `n ≤ 64`). -/
def rotr64 (x n : Nat) : Nat := (x >>> n) ||| ((x % (2 ^ n)) <<< (64 - n))

/-- Word of a 16-word work vector, out-of-range reads defaulting to 0 (never
exercised: all indices used are below 16). -/
def lget (v : List Nat) (i : Nat) : Nat := v.getD i 0

/-- The BLAKE2b mixing function G (RFC 7693 §3.1) acting on work-vector indices
`a b c d` with message words `x y`. -/
def blakeG (v : List Nat) (a b c d x y : Nat) : List Nat :=
  let va := add64 (add64 (lget v a) (lget v b)) x
  let vd := rotr64 (xor64 (lget v d) va) 32
  let vc := add64 (lget v c) vd
  let vb := rotr64 (xor64 (lget v b) vc) 24
  let va2 := add64 (add64 va vb) y
  let vd2 := rotr64 (xor64 vd va2) 16
  let vc2 := add64 vc vd2
  let vb2 := rotr64 (xor64 vb vc2) 63
  ((((v.set a va2).set b vb2).set c vc2).set d vd2)

/-- The message-schedule permutations SIGMA (RFC 7693 §2.7); BLAKE2b round `r`
uses row `r % 10`. -/
def SIGMA : List (List Nat) :=
  [[0, 1, 2, 3, 4, 5, 6, 7, 8, 9, 10, 11, 12, 13, 14, 15],
   [14, 10, 4, 8, 9, 15, 13, 6, 1, 12, 0, 2, 11, 7, 5, 3],
   [11, 8, 12, 0, 5, 2, 15, 13, 10, 14, 3, 6, 7, 1, 9, 4],
   [7, 9, 3, 1, 13, 12, 11, 14, 2, 6, 5, 10, 4, 0, 15, 8],
   [9, 0, 5, 7, 2, 4, 10, 15, 14, 1, 11, 12, 6, 8, 3, 13],
   [2, 12, 6, 10, 0, 11, 8, 3, 4, 13, 7, 5, 15, 14, 1, 9],
   [12, 5, 1, 15, 14, 13, 4, 10, 0, 7, 6, 3, 9, 2, 8, 11],
   [13, 11, 7, 14, 12, 1, 3, 9, 5, 0, 15, 4, 8, 6, 2, 10],
   [6, 15, 14, 9, 11, 3, 0, 8, 12, 2, 13, 7, 1, 4, 10, 5],
   [10, 2, 8, 4, 7, 6, 1, 5, 15, 11, 9, 14, 3, 12, 13, 0]]

/-- The BLAKE2b initialization vector (RFC 7693 §2.6). -/
def BLAKE2B_IV : List Nat :=
  [0x6a09e667f3bcc908, 0xbb67ae8584caa73b, 0x3c6ef372fe94f82b, 0xa54ff53a5f1d36f1,
   0x510e527fade682d1, 0x9b05688c2b3e6c1f, 0x1f83d9abfb41bd6b, 0x5be0cd19137e2179]

/-- One BLAKE2b round: eight G applications, first down the columns and then
along the diagonals of the 4x4 work vector. -/
def blakeRound (m v : List Nat) (r : Nat) : List Nat :=
  let s := SIGMA.getD (r % 10) []
  let mi := fun i => lget m (s.getD i 0)
  let v := blakeG v 0 4 8 12 (mi 0) (mi 1)
  let v := blakeG v 1 5 9 13 (mi 2) (mi 3)
  let v := blakeG v 2 6 10 14 (mi 4) (mi 5)
  let v := blakeG v 3 7 11 15 (mi 6) (mi 7)
  let v := blakeG v 0 5 10 15 (mi 8) (mi 9)
  let v := blakeG v 1 6 11 12 (mi 10) (mi 11)
  let v := blakeG v 2 7 8 13 (mi 12) (mi 13)
  let v := blakeG v 3 4 9 14 (mi 14) (mi 15)
  v

/-- The BLAKE2b compression function F (RFC 7693 §3.2): `h` the 8-word chain
value, `m` the 16-word message block, `t` the byte offset counter, `last`
whether this is the final block. -/
def blake2bCompress (h m : List Nat) (t : Nat) (last : Bool) : List Nat :=
  let v := h ++ BLAKE2B_IV
  let v := v.set 12 (xor64 (lget v 12) (t % W64))
  let v := v.set 13 (xor64 (lget v 13) ((t >>> 64) % W64))
  let v := if last then v.set 14 (xor64 (lget v 14) (W64 - 1)) else v
  let v := (List.range 12).foldl (fun acc r => blakeRound m acc r) v
  (List.range 8).map (fun i => xor64 (lget h i) (xor64 (lget v i) (lget v (i + 8))))

/-- Little-endian word from up to eight bytes. -/
def wordOfBytesLE (bs : List Nat) : Nat :=
  bs.foldr (fun b acc => b + (acc <<< 8)) 0

/-- The sixteen little-endian 64-bit words of a message block, zero-padded to
128 bytes. -/
def blockWords (block : List Nat) : List Nat :=
  let padded := block ++ List.replicate (128 - block.length) 0
  (List.range 16).map (fun i => wordOfBytesLE ((padded.drop (8 * i)).take 8))

/-- Sequential BLAKE2b block processing: full 128-byte blocks with a running
byte counter, then the final (possibly short, possibly empty) block with the
finalization flag. `fuel` is a structural-recursion bound; the callers pass
`data.length`, which the step count (one step per 128 consumed bytes) never
exceeds. -/
def blake2bGo (fuel : Nat) (h : List Nat) (t : Nat) (data : List Nat) : List Nat :=
  match fuel with
  | 0 => blake2bCompress h (blockWords data) (t + data.length) true
  | fuel + 1 =>
    if data.length ≤ 128 then blake2bCompress h (blockWords data) (t + data.length) true
    else
      blake2bGo fuel (blake2bCompress h (blockWords (data.take 128)) (t + 128) false) (t + 128)
        (data.drop 128)

/-- The eight bytes of a 64-bit word, little-endian. -/
def wordBytesLE (w : Nat) : List Nat :=
  [w % 256, (w >>> 8) % 256, (w >>> 16) % 256, (w >>> 24) % 256,
   (w >>> 32) % 256, (w >>> 40) % 256, (w >>> 48) % 256, (w >>> 56) % 256]

/-- Unkeyed BLAKE2b of `data` at digest length `outLen` bytes: the parameter
block contributes `0x01010000 ^^^ outLen` into the first chain word, and the
digest is the first `outLen` bytes of the little-endian chain value. -/
def blake2b (data : List Nat) (outLen : Nat) : List Nat :=
  let h0 := BLAKE2B_IV.set 0 (xor64 (lget BLAKE2B_IV 0) (0x01010000 ^^^ outLen))
  let h := blake2bGo data.length h0 0 data
  ((h.map wordBytesLE).flatten).take outLen

/-- Lowercase hexadecimal digit. -/
def hexDigitChar (n : Nat) : Char :=
  if n < 10 then Char.ofNat (48 + n) else Char.ofNat (87 + n)

/-- The `bytesToHex` helper of `@noble/hashes`: lowercase hex rendering, two
digits per byte. -/
def bytesToHex (bs : List Nat) : String :=
  String.mk ((bs.map (fun b => [hexDigitChar (b / 16), hexDigitChar (b % 16)])).flatten)

deriving instance DecidableEq for Except

/-! ## Agent identity: the `agent-context` module copy -/

/-- Maximum length for agent names (both copies in the repository). -/
def MAX_AGENT_NAME_LENGTH : Nat := 255

/-- Does the string avoid starting with a low surrogate? Prepending any string
to such a string commutes with `textEncoderEncode`. -/
def headNotLowSurrogate (s : JSString) : Bool :=
  match s.head? with
  | some u => !isLowSurrogate u
  | none => true

/-- The byte string both `generateAgentId` copies intend to hash, per the
spec's words: UTF-8 of the trimmed, 255-truncated agent name, then UTF-8 of
the trimmed project id. -/
def agentIdHashInput (agentName projectId : JSString) : List Nat :=
  let name := jsTrim agentName
  let name :=
    if MAX_AGENT_NAME_LENGTH < name.length then name.take MAX_AGENT_NAME_LENGTH else name
  textEncoderEncode name ++ textEncoderEncode (jsTrim projectId)


namespace AgentContext

/-- The agent-context module's `blake2b64`: encode `agentName` and `projectId`
to UTF-8 separately, concatenate the byte arrays, hash with BLAKE2b at
`dkLen: 8`, render as hex. -/
def blake2b64 (agentName projectId : JSString) : String :=
  let agentNameBytes := textEncoderEncode agentName
  let projectIdBytes := textEncoderEncode projectId
  let combined := agentNameBytes ++ projectIdBytes
  bytesToHex (blake2b combined 8)

/-- The agent-context module's `generateAgentId`: reject an empty (falsy)
`agentName` or `projectId`, trim the name, truncate it to 255 code units when
longer, and hash it together with the trimmed project id. A thrown `Error`
is modelled as `Except.error` carrying the message. -/
def generateAgentId (agentName projectId : JSString) : Except String String :=
  if agentName = [] then .error "agentName must be a non-empty string"
  else if projectId = [] then .error "projectId must be a non-empty string"
  else
    let name := jsTrim agentName
    let name :=
      if MAX_AGENT_NAME_LENGTH < name.length then name.take MAX_AGENT_NAME_LENGTH else name
    .ok (blake2b64 name (jsTrim projectId))

end AgentContext

/-! ## Agent identity: the `span-processor.ts` copy -/

namespace SpanProcessor

/-- The span-processor copy of `blake2b64`: concatenate the two JavaScript
strings first and UTF-8 encode the concatenation, hash with BLAKE2b at
`dkLen: 8`, render as hex. -/
def blake2b64 (agentName projectId : JSString) : String :=
  let combined := textEncoderEncode (agentName ++ projectId)
  bytesToHex (blake2b combined 8)

/-- The span-processor copy of `generateAgentId`: identical validation,
trimming and truncation, delegating to this file's `blake2b64`. -/
def generateAgentId (agentName projectId : JSString) : Except String String :=
  if agentName = [] then .error "agentName must be a non-empty string"
  else if projectId = [] then .error "projectId must be a non-empty string"
  else
    let name := jsTrim agentName
    let name :=
      if MAX_AGENT_NAME_LENGTH < name.length then name.take MAX_AGENT_NAME_LENGTH else name
    .ok (blake2b64 name (jsTrim projectId))

end SpanProcessor

/-- Reference agent-id formula, written from the spec's words (for the
refinement comparison of claim C6): trim both inputs, truncate the trimmed
agent name to 255 characters when longer, concatenate the UTF-8 encoding of
the name with the UTF-8 encoding of the project id, hash with BLAKE2b at a
fixed 8-byte output length, and render as a 16-character lowercase hex
string. -/
def specAgentIdFormula (agentName projectId : JSString) : String :=
  bytesToHex (blake2b (agentIdHashInput agentName projectId) 8)

/-! ## Span attribute keys (`packages/core/src/constants.ts`) -/

namespace AntsPlatformOtelSpanAttributes

/-- Trace input attribute key. -/
def TRACE_INPUT : String := "ants-platform.trace.input"

/-- Trace output attribute key. -/
def TRACE_OUTPUT : String := "ants-platform.trace.output"

/-- Trace metadata attribute key. -/
def TRACE_METADATA : String := "ants-platform.trace.metadata"

/-- Observation type attribute key. -/
def OBSERVATION_TYPE : String := "ants-platform.observation.type"

/-- Observation metadata attribute key. -/
def OBSERVATION_METADATA : String := "ants-platform.observation.metadata"

/-- Observation level attribute key. -/
def OBSERVATION_LEVEL : String := "ants-platform.observation.level"

/-- Observation status message attribute key. -/
def OBSERVATION_STATUS_MESSAGE : String := "ants-platform.observation.status_message"

/-- Observation input attribute key. -/
def OBSERVATION_INPUT : String := "ants-platform.observation.input"

/-- Observation output attribute key. -/
def OBSERVATION_OUTPUT : String := "ants-platform.observation.output"

/-- Completion start time attribute key. -/
def OBSERVATION_COMPLETION_START_TIME : String :=
  "ants-platform.observation.completion_start_time"

/-- Model name attribute key. -/
def OBSERVATION_MODEL : String := "ants-platform.observation.model.name"

/-- Model parameters attribute key. -/
def OBSERVATION_MODEL_PARAMETERS : String := "ants-platform.observation.model.parameters"

/-- Usage details attribute key. -/
def OBSERVATION_USAGE_DETAILS : String := "ants-platform.observation.usage_details"

/-- Cost details attribute key. -/
def OBSERVATION_COST_DETAILS : String := "ants-platform.observation.cost_details"

/-- Prompt name attribute key. -/
def OBSERVATION_PROMPT_NAME : String := "ants-platform.observation.prompt.name"

/-- Prompt version attribute key. -/
def OBSERVATION_PROMPT_VERSION : String := "ants-platform.observation.prompt.version"

/-- Environment attribute key. -/
def ENVIRONMENT : String := "ants-platform.environment"

/-- Release attribute key. -/
def RELEASE : String := "ants-platform.release"

/-- Version attribute key. -/
def VERSION : String := "ants-platform.version"

/-- Modelled from the spec: the agent id attribute key stamped by `onStart`.
The `AGENT_ID` constant is referenced by `span-processor.ts` but its string
declaration is not among the sources here; it is modelled as a key of the
vendor namespace, distinct from every other key in this file, which is the
only property the development relies on. -/
def AGENT_ID : String := "ants-platform.agent.id"

/-- Modelled from the spec: the agent name attribute key stamped by `onStart`
(declaration not among the sources; only distinctness from the other keys is
relied upon). -/
def AGENT_NAME : String := "ants-platform.agent.name"

/-- Modelled from the spec: the agent display-name attribute key stamped by
`onStart` (declaration not among the sources; only distinctness from the other
keys is relied upon). -/
def AGENT_DISPLAY_NAME : String := "ants-platform.agent.display_name"

/-- Modelled from the spec: the project id attribute key stamped by `onStart`
(declaration not among the sources; only distinctness from the other keys is
relied upon). -/
def PROJECT_ID : String := "ants-platform.project.id"

end AntsPlatformOtelSpanAttributes

/-! ## Attribute values and maps -/

/-- An OpenTelemetry attribute value as used by these sources: a string, an
integer, a boolean, or an array of strings. -/
inductive AttrValue where
  | str (s : String)
  | int (n : Int)
  | bool (b : Bool)
  | strArr (xs : List String)
deriving DecidableEq, Repr

/-- A span's attribute map: association list in insertion order with unique
keys, as a JavaScript object holds properties. -/
abbrev Attrs := List (String × AttrValue)

/-- Property read on an attribute map. -/
def getAttr (attrs : Attrs) (k : String) : Option AttrValue :=
  match attrs with
  | [] => none
  | (k', v) :: rest => if k' = k then some v else getAttr rest k

/-- Property write on an attribute map: overwrite the existing key in place,
else append. -/
def setAttr (attrs : Attrs) (k : String) (v : AttrValue) : Attrs :=
  match attrs with
  | [] => [(k, v)]
  | (k', v') :: rest => if k' = k then (k', v) :: rest else (k', v') :: setAttr rest k v

/-! ## `packages/tracing/src/attributes.ts` -/

/-- A JSON-representable JavaScript value, the argument domain of the
serialization helpers of `attributes.ts`. -/
inductive JsonValue where
  | null
  | bool (b : Bool)
  | num (n : Int)
  | str (s : String)
  | arr (xs : List JsonValue)
  | obj (fields : List (String × JsonValue))

mutual

/-- Model of the host `JSON.stringify` on JSON-representable values (the
sources only rely on it being a total function of the value). -/
def stringifyJson : JsonValue → String
  | .null => "null"
  | .bool b => if b then "true" else "false"
  | .num n => toString n
  | .str s => "\"" ++ s ++ "\""
  | .arr xs => "[" ++ stringifyArr xs ++ "]"
  | .obj fs => "\x7b" ++ stringifyObj fs ++ "\x7d"

/-- Comma-separated stringification of a JSON array's elements. -/
def stringifyArr : List JsonValue → String
  | [] => ""
  | [x] => stringifyJson x
  | x :: y :: xs => stringifyJson x ++ "," ++ stringifyArr (y :: xs)

/-- Comma-separated stringification of a JSON object's fields. -/
def stringifyObj : List (String × JsonValue) → String
  | [] => ""
  | [(k, v)] => "\"" ++ k ++ "\":" ++ stringifyJson v
  | (k, v) :: f :: fs => "\"" ++ k ++ "\":" ++ stringifyJson v ++ "," ++ stringifyObj (f :: fs)

end

/-- The `_serialize` helper: a string passes through, `null`/`undefined` give
`undefined`, anything else is JSON-encoded. (`undefined` is the `none` of the
input option; the catch branch of the source is unreachable for
JSON-representable values.) -/
def serialize (obj : Option JsonValue) : Option String :=
  match obj with
  | some (.str s) => some s
  | some .null => none
  | some v => some (stringifyJson v)
  | none => none

/-- JavaScript truthiness of a possibly-undefined string: `undefined` and the
empty string are falsy. -/
def truthyStr (s : Option String) : Bool :=
  match s with
  | none => false
  | some s => s ≠ ""

/-- The `_flattenAndSerializeMetadata` helper: `null`/`undefined` metadata
contributes nothing; non-object (or array) metadata is serialized as one
opaque value under the scope's metadata key; plain-object metadata is
flattened one level into `scope.key` entries, string values passing through
unserialized; falsy serializations are dropped. -/
def flattenAndSerializeMetadata (metadata : Option JsonValue) (type : String) :
    List (String × Option AttrValue) :=
  let prefixKey :=
    if type = "observation" then AntsPlatformOtelSpanAttributes.OBSERVATION_METADATA
    else AntsPlatformOtelSpanAttributes.TRACE_METADATA
  match metadata with
  | none => []
  | some .null => []
  | some (.obj fields) =>
    fields.map (fun kv =>
      let serialized := match kv.2 with
        | .str s => some s
        | w => serialize (some w)
      (prefixKey ++ "." ++ kv.1, if truthyStr serialized then serialized.map .str else none))
  | some v =>
    match serialize (some v) with
    | some s => if s = "" then [] else [(prefixKey, some (.str s))]
    | none => []

/-- Keep the entries whose value is present: the
`Object.fromEntries(Object.entries(x).filter(([_, v]) => v != null))` step.
The keys produced by the attribute builders are pairwise distinct, so the
association list built in entry order is the resulting object. -/
def buildAttributes (entries : List (String × Option AttrValue)) : Attrs :=
  entries.filterMap (fun kv => match kv.2 with | some v => some (kv.1, v) | none => none)

/-- A prompt reference as carried by observation attributes: name, version and
whether the prompt object is a fallback. -/
structure PromptRef where
  name : String
  version : Int
  isFallback : Bool
deriving DecidableEq, Repr

/-- The field set of `AntsPlatformObservationAttributes` destructured by
`createObservationAttributes`; absent fields are `none`. -/
structure ObservationAttributeFields where
  metadata : Option JsonValue := none
  input : Option JsonValue := none
  output : Option JsonValue := none
  level : Option String := none
  statusMessage : Option String := none
  version : Option String := none
  completionStartTime : Option JsonValue := none
  model : Option String := none
  modelParameters : Option JsonValue := none
  usageDetails : Option JsonValue := none
  costDetails : Option JsonValue := none
  prompt : Option PromptRef := none

/-- The `createObservationAttributes` builder: the fixed observation fields in
source order, the prompt-linkage entries only when a prompt was supplied and
is not a fallback, the flattened metadata, and finally the null-dropping
filter. -/
def createObservationAttributes (type : String) (a : ObservationAttributeFields) : Attrs :=
  buildAttributes
    ([(AntsPlatformOtelSpanAttributes.OBSERVATION_TYPE, some (.str type)),
      (AntsPlatformOtelSpanAttributes.OBSERVATION_LEVEL, a.level.map .str),
      (AntsPlatformOtelSpanAttributes.OBSERVATION_STATUS_MESSAGE, a.statusMessage.map .str),
      (AntsPlatformOtelSpanAttributes.VERSION, a.version.map .str),
      (AntsPlatformOtelSpanAttributes.OBSERVATION_INPUT, (serialize a.input).map .str),
      (AntsPlatformOtelSpanAttributes.OBSERVATION_OUTPUT, (serialize a.output).map .str),
      (AntsPlatformOtelSpanAttributes.OBSERVATION_MODEL, a.model.map .str),
      (AntsPlatformOtelSpanAttributes.OBSERVATION_USAGE_DETAILS,
        (serialize a.usageDetails).map .str),
      (AntsPlatformOtelSpanAttributes.OBSERVATION_COST_DETAILS,
        (serialize a.costDetails).map .str),
      (AntsPlatformOtelSpanAttributes.OBSERVATION_COMPLETION_START_TIME,
        (serialize a.completionStartTime).map .str),
      (AntsPlatformOtelSpanAttributes.OBSERVATION_MODEL_PARAMETERS,
        (serialize a.modelParameters).map .str)]
     ++ (match a.prompt with
         | some pr =>
           if pr.isFallback then []
           else
             [(AntsPlatformOtelSpanAttributes.OBSERVATION_PROMPT_NAME, some (.str pr.name)),
              (AntsPlatformOtelSpanAttributes.OBSERVATION_PROMPT_VERSION,
                some (.int pr.version))]
         | none => [])
     ++ flattenAndSerializeMetadata a.metadata "observation")

/-! ## Tracer provider slot (`tracerProvider.ts`) -/

/-- The per-process state held under the shared global symbol: an optional
isolated tracer provider (`null` is `none`). The provider type is abstract. -/
structure AntsPlatformGlobalState (P : Type) where
  isolatedTracerProvider : Option P

/-- Fresh global state: no isolated provider. -/
def createState (P : Type) : AntsPlatformGlobalState P :=
  { isolatedTracerProvider := none }

/-- The `setAntsPlatformTracerProvider` write: store the provider (or `null`)
in the global slot. -/
def setAntsPlatformTracerProvider {P : Type} (st : AntsPlatformGlobalState P)
    (provider : Option P) : AntsPlatformGlobalState P :=
  { st with isolatedTracerProvider := provider }

/-- The `getAntsPlatformTracerProvider` read: the isolated provider when one
is set (a provider object is always truthy), else the ambient global
OpenTelemetry provider `trace.getTracerProvider()`. -/
def getAntsPlatformTracerProvider {P : Type} (st : AntsPlatformGlobalState P)
    (ambientProvider : P) : P :=
  match st.isolatedTracerProvider with
  | some p => p
  | none => ambientProvider

/-! ## The span processor's per-span pipeline (`span-processor.ts`)

The pipeline is embedded as pure functions over the span's attribute map. The
externally supplied mask function and exportability predicate may throw, which
is modelled by `Except Unit`. An event list records, in order, the externally
visible calls the pipeline makes (mask invocations, media processing, the
debug log, the forward to the wrapped exporter, error logs). -/

/-- An externally observable action of the per-span pipeline. -/
inductive PipelineEvent where
  | maskInvoked (data : AttrValue)
  | mediaProcess
  | debugLogged
  | exporterOnEnd
  | predicateErrorLogged
  | maskErrorLogged
deriving DecidableEq, Repr

/-- The resolved agent configuration cached by the processor once agent
resolution succeeds. -/
structure ResolvedAgentConfig where
  agentId : String
  agentName : String
  agentDisplayName : Option String := none
  projectId : String
deriving DecidableEq, Repr

/-- The processor fields the span hooks read: configuration values, the two
externally supplied functions, the modelled media rewrite, and the agent
sub-state (`resolvedAgentConfig` cached on success, `pendingAgentConfig` true
while a supplied agent configuration is unresolved). -/
structure SpanProcessorState where
  environment : Option String := none
  release : Option String := none
  mask : Option (AttrValue → Except Unit AttrValue) := none
  shouldExportSpan : Option (Attrs → Except Unit Bool) := none
  mediaRewrite : AttrValue → AttrValue := id
  resolvedAgentConfig : Option ResolvedAgentConfig := none
  pendingAgentConfig : Bool := false

/-- The attribute record built by `onStart`, in source order: environment and
release always, and the four agent attributes exactly when a resolved agent
configuration is cached at this instant. Values are `none` where the source
writes `undefined`. -/
def onStartAttributes (p : SpanProcessorState) : List (String × Option AttrValue) :=
  [(AntsPlatformOtelSpanAttributes.ENVIRONMENT, p.environment.map .str),
   (AntsPlatformOtelSpanAttributes.RELEASE, p.release.map .str)] ++
  (match p.resolvedAgentConfig with
   | some cfg =>
     [(AntsPlatformOtelSpanAttributes.AGENT_ID, some (.str cfg.agentId)),
      (AntsPlatformOtelSpanAttributes.AGENT_NAME, some (.str cfg.agentName)),
      (AntsPlatformOtelSpanAttributes.AGENT_DISPLAY_NAME, cfg.agentDisplayName.map .str),
      (AntsPlatformOtelSpanAttributes.PROJECT_ID, some (.str cfg.projectId))]
   | none => [])

/-- One property write of `Span.setAttributes`: a present value is written,
an `undefined` value is skipped (`Span.setAttribute` ignores nullish
values). -/
def setAttributesStep (acc : Attrs) (kv : String × Option AttrValue) : Attrs :=
  match kv.2 with
  | some v => setAttr acc kv.1 v
  | none => acc

/-- OpenTelemetry `Span.setAttributes` on the attribute record, writing the
entries in order. -/
def setAttributes (attrs : Attrs) (record : List (String × Option AttrValue)) : Attrs :=
  record.foldl setAttributesStep attrs

/-- The value a record of `setAttributes` writes for key `k`: the last
present value among the entries for `k`, if any (skipped `undefined` entries
do not erase earlier writes). -/
def recordLookup (record : List (String × Option AttrValue)) (k : String) : Option AttrValue :=
  match record with
  | [] => none
  | kv :: rest =>
    match recordLookup rest k with
    | some v => some v
    | none =>
      if kv.1 = k then (match kv.2 with | some v => some v | none => none) else none

/-- `AntsPlatformSpanProcessor.onStart` restricted to its effect on the span's
attributes: stamp the `onStartAttributes` record. (The unresolved-agent branch
only emits a debug log.) -/
def onStart (p : SpanProcessorState) (spanAttrs : Attrs) : Attrs :=
  setAttributes spanAttrs (onStartAttributes p)

/-- The fixed sentinel written when the mask function throws. -/
def MASK_FAILURE_SENTINEL : String := "<fully masked due to failed mask function>"

/-- `applyMask`: without a configured mask return the data unchanged (no
invocation); otherwise invoke the mask, and on a throw log a warning and
return the sentinel string. The event list records the invocation and the
warning. -/
def applyMask (p : SpanProcessorState) (data : AttrValue) :
    AttrValue × List PipelineEvent :=
  match p.mask with
  | none => (data, [])
  | some m =>
    match m data with
    | .ok v => (v, [.maskInvoked data])
    | .error _ => (.str MASK_FAILURE_SENTINEL, [.maskInvoked data, .maskErrorLogged])

/-- The six maskable attribute keys of `applyMaskInPlace`, in source order. -/
def maskCandidates : List String :=
  [AntsPlatformOtelSpanAttributes.OBSERVATION_INPUT,
   AntsPlatformOtelSpanAttributes.TRACE_INPUT,
   AntsPlatformOtelSpanAttributes.OBSERVATION_OUTPUT,
   AntsPlatformOtelSpanAttributes.TRACE_OUTPUT,
   AntsPlatformOtelSpanAttributes.OBSERVATION_METADATA,
   AntsPlatformOtelSpanAttributes.TRACE_METADATA]

/-- The loop body of `applyMaskInPlace`: when the candidate key is present in
the span's attributes, overwrite the value with `applyMask` of it,
accumulating the events of the per-attribute invocation. -/
def maskStep (p : SpanProcessorState) (acc : Attrs × List PipelineEvent) (k : String) :
    Attrs × List PipelineEvent :=
  match getAttr acc.1 k with
  | some v =>
    let r := applyMask p v
    (setAttr acc.1 k r.1, acc.2 ++ r.2)
  | none => acc

/-- `applyMaskInPlace` as the fold of the per-candidate body over the six
candidate keys. -/
def applyMaskInPlace (p : SpanProcessorState) (attrs : Attrs) :
    Attrs × List PipelineEvent :=
  maskCandidates.foldl (maskStep p) (attrs, [])

/-- Modelled from the spec: `MediaService.process` (the `MediaService.js`
module is imported by `span-processor.ts` but its file is not among the
sources). Per §4.2 it scans the media-bearing attributes, the input, output
and metadata fields at trace and observation level, and replaces embedded
media payloads in place by reference strings; the per-value replacement is
the externally supplied `mediaRewrite`, applied by this per-key body to each
present media-bearing attribute. -/
def mediaStep (p : SpanProcessorState) (acc : Attrs) (k : String) : Attrs :=
  match getAttr acc k with
  | some v => setAttr acc k (p.mediaRewrite v)
  | none => acc

/-- Modelled from the spec: `MediaService.process` as the fold of the per-key
replacement over the media-bearing keys. -/
def mediaServiceProcess (p : SpanProcessorState) (attrs : Attrs) : Attrs :=
  maskCandidates.foldl (mediaStep p) attrs

/-- The tail of `processEndedSpan` past the exportability gate: masking in
place, media processing, the debug snapshot log, and the forward to the
wrapped exporter's `onEnd`. -/
def processEndedSpanRest (p : SpanProcessorState) (attrs : Attrs) :
    Attrs × List PipelineEvent :=
  let masked := applyMaskInPlace p attrs
  let processed := mediaServiceProcess p masked.1
  (processed, masked.2 ++ [.mediaProcess, .debugLogged, .exporterOnEnd])

/-- `processEndedSpan`: evaluate the exportability predicate when configured;
a `false` result drops the span silently, a throw logs an error and drops the
span; otherwise run the rest of the pipeline. The result is the span's final
attribute map and the ordered event list. -/
def processEndedSpan (p : SpanProcessorState) (attrs : Attrs) :
    Attrs × List PipelineEvent :=
  match p.shouldExportSpan with
  | some pred =>
    match pred attrs with
    | .ok false => (attrs, [])
    | .error _ => (attrs, [.predicateErrorLogged])
    | .ok true => processEndedSpanRest p attrs
  | none => processEndedSpanRest p attrs

/-! ## Cooperative-concurrency model of the processor's pending-operation
bookkeeping

The JavaScript runtime runs the processor on one logical thread; asynchronous
work interleaves only at suspension points. The model below is a small-step
state machine over the observable suspension events:

* `onEnd id` — the `onEnd` hook runs: it starts `processEndedSpan`, attaches
  the `.catch` logger, adds the resulting promise (named by the fresh `id`)
  to `pendingEndedSpans`, and attaches the `.finally` removal;
* `settle id ok` — that promise settles (`ok` records whether
  `processEndedSpan` fulfilled or rejected into the `.catch`); the `.finally`
  removes the entry, the `.catch` has logged on rejection, and the caller of
  `onEnd` observes nothing in either case;
* `mediaStart` / `mediaSettle` — modelled from the spec (§4.2): a media upload
  is registered in, and removed from, the `MediaService` upload ledger;
* `agentResolved` — the constructor-started `agentConfigPromise` settles;
* `flushCall f isShutdown` — `forceFlush` (or `shutdown`) is invoked: the
  synchronous prefix of `flush()` runs; with an agent configuration present it
  suspends awaiting `agentConfigPromise`, otherwise it snapshots
  `Array.from(this.pendingEndedSpans)` at once and suspends in `Promise.all`;
* `flushAgentDone f` — the await of `agentConfigPromise` resumes (only once
  that promise has settled) and the snapshot is taken at resumption;
* `flushSpansDone f` — `Promise.all` of the snapshot resolves (only once every
  snapshot member has settled) and `mediaService.flush()` is called;
* `flushMediaDone f` — `mediaService.flush()` resolves (modelled from the
  spec: only once the upload ledger is empty) and the wrapped processor's
  `forceFlush` (or `shutdown`, per the call being modelled) is invoked;
* `flushExporterDone f` — the wrapped processor's promise resolves and the
  `forceFlush`/`shutdown` call returns to its caller.

`step` returns `none` when the event is not enabled in the state, so a trace
`runs` precisely when it is an interleaving the runtime could produce. -/

namespace FlowModel

/-- The program counter of one in-flight `forceFlush`/`shutdown` call. -/
inductive FlushStage where
  | waitAgent
  | waitSpans (snapshot : List Nat)
  | waitMedia
  | waitExporter
  | done
deriving DecidableEq, Repr

/-- One in-flight `forceFlush`/`shutdown` call: its identity, whether it is a
`shutdown`, and its stage. -/
structure FlushCtl where
  fid : Nat
  isShutdown : Bool
  stage : FlushStage
deriving DecidableEq, Repr

/-- The processor state visible to the bookkeeping: the pending end-of-span
promise set, the media upload ledger, the agent promise status, the in-flight
flush calls, and counters of logged span-processing errors and of the
delegations to the wrapped processor. -/
structure ProcState where
  pendingEndedSpans : List Nat := []
  mediaPending : List Nat := []
  agentConfigured : Bool := false
  agentPending : Bool := false
  flushes : List FlushCtl := []
  errorsLogged : Nat := 0
  exporterForceFlushes : Nat := 0
  exporterShutdowns : Nat := 0
deriving DecidableEq, Repr

/-- The flush control block of call `f`, when one exists. -/
def findFlush (s : ProcState) (f : Nat) : Option FlushCtl :=
  s.flushes.find? (fun c => c.fid == f)

/-- Replace the stage of flush call `f`. -/
def setStage (s : ProcState) (f : Nat) (st : FlushStage) : ProcState :=
  { s with flushes := s.flushes.map (fun c => if c.fid == f then { c with stage := st } else c) }

/-- The suspension events of the model. -/
inductive Event where
  | onEnd (id : Nat)
  | settle (id : Nat) (ok : Bool)
  | mediaStart (m : Nat)
  | mediaSettle (m : Nat)
  | agentResolved
  | flushCall (f : Nat) (isShutdown : Bool)
  | flushAgentDone (f : Nat)
  | flushSpansDone (f : Nat)
  | flushMediaDone (f : Nat)
  | flushExporterDone (f : Nat)
deriving DecidableEq, Repr

/-- One step of the machine; `none` when the event is not enabled. -/
def step (s : ProcState) : Event → Option ProcState
  | .onEnd id =>
    if id ∈ s.pendingEndedSpans then none
    else some { s with pendingEndedSpans := s.pendingEndedSpans ++ [id] }
  | .settle id ok =>
    if id ∈ s.pendingEndedSpans then
      some { s with pendingEndedSpans := s.pendingEndedSpans.erase id,
                    errorsLogged := if ok then s.errorsLogged else s.errorsLogged + 1 }
    else none
  | .mediaStart m =>
    if m ∈ s.mediaPending then none
    else some { s with mediaPending := s.mediaPending ++ [m] }
  | .mediaSettle m =>
    if m ∈ s.mediaPending then some { s with mediaPending := s.mediaPending.erase m }
    else none
  | .agentResolved =>
    if s.agentPending then some { s with agentPending := false } else none
  | .flushCall f shut =>
    if (findFlush s f).isSome then none
    else
      some { s with flushes := s.flushes ++
        [⟨f, shut, if s.agentConfigured then .waitAgent else .waitSpans s.pendingEndedSpans⟩] }
  | .flushAgentDone f =>
    match findFlush s f with
    | some c =>
      if c.stage = .waitAgent ∧ ¬s.agentPending then
        some (setStage s f (.waitSpans s.pendingEndedSpans))
      else none
    | none => none
  | .flushSpansDone f =>
    match findFlush s f with
    | some c =>
      match c.stage with
      | .waitSpans snapshot =>
        if snapshot.all (fun id => id ∉ s.pendingEndedSpans) then
          some (setStage s f .waitMedia)
        else none
      | _ => none
    | none => none
  | .flushMediaDone f =>
    match findFlush s f with
    | some c =>
      if c.stage = .waitMedia ∧ s.mediaPending = [] then
        some { (setStage s f .waitExporter) with
               exporterForceFlushes :=
                 if c.isShutdown then s.exporterForceFlushes else s.exporterForceFlushes + 1,
               exporterShutdowns :=
                 if c.isShutdown then s.exporterShutdowns + 1 else s.exporterShutdowns }
      else none
    | none => none
  | .flushExporterDone f =>
    match findFlush s f with
    | some c => if c.stage = .waitExporter then some (setStage s f .done) else none
    | none => none

/-- Run a trace of events from a state; `none` as soon as an event is not
enabled. -/
def runTrace (s : ProcState) : List Event → Option ProcState
  | [] => some s
  | e :: rest =>
    match step s e with
    | some s2 => runTrace s2 rest
    | none => none

/-- Whether event `e` reads or writes the control block of flush call `f`. -/
def touchesFlush (f : Nat) : Event → Bool
  | .flushCall g _ => g == f
  | .flushAgentDone g => g == f
  | .flushSpansDone g => g == f
  | .flushMediaDone g => g == f
  | .flushExporterDone g => g == f
  | _ => false

end FlowModel

/-! ## Theorems -/

/-- Claim C10: after `setAntsPlatformTracerProvider(p)` with a non-null
provider, `getAntsPlatformTracerProvider()` returns exactly `p`; after
`setAntsPlatformTracerProvider(null)`, or on a fresh state, it returns the
ambient global OpenTelemetry tracer provider. -/
theorem C10_tracer_provider_precedence :
    ∀ (P : Type) (st : AntsPlatformGlobalState P) (p ambient : P),
      getAntsPlatformTracerProvider (setAntsPlatformTracerProvider st (some p)) ambient = p ∧
      getAntsPlatformTracerProvider (setAntsPlatformTracerProvider st none) ambient = ambient ∧
      getAntsPlatformTracerProvider (createState P) ambient = ambient := by
  intro P st p ambient
  exact ⟨rfl, rfl, rfl⟩

/-- Claim C7, counterexample: an agent name that is whitespace only is empty
after trimming, yet `generateAgentId` accepts it and produces a hash (of the
empty name and the project id), because the source validates the string before
trimming; the claim's "empty after trimming fails" is false on the code. -/
theorem C7_counterexample_whitespace_name :
    jsTrim (jsStr "   ") = [] ∧
    AgentContext.generateAgentId (jsStr "   ") (jsStr "proj-1") =
      .ok "3fa7e4e208c8999d" := by
  constructor
  · decide
  · decide

/-- Claim C7 (amended): `generateAgentId` fails with the InvalidArgument-style
error exactly when the given `agentName` or `projectId` is the empty string
before trimming; in particular the empty-string examples fail as the claim
says, and every pair of non-empty inputs (even whitespace-only ones) produces
a hash. -/
theorem C7_validation_pre_trim :
    (∀ agentName projectId : JSString,
      (AgentContext.generateAgentId agentName projectId).isOk = true ↔
        (agentName ≠ [] ∧ projectId ≠ [])) ∧
    AgentContext.generateAgentId (jsStr "") (jsStr "proj-1") =
      .error "agentName must be a non-empty string" ∧
    AgentContext.generateAgentId (jsStr "qa_agent") (jsStr "") =
      .error "projectId must be a non-empty string" := by
  refine ⟨fun a p => ?_, by decide, by decide⟩
  unfold AgentContext.generateAgentId
  by_cases ha : a = [] <;> by_cases hp : p = [] <;> simp [ha, hp, Except.isOk, Except.toBool]

/-- Claim C8, counterexample: the distinct valid pair "x" / "xx" collides with
its own swap, because the hashed byte string is "xxx" in both argument orders;
the universally quantified "swapping never produces the same id" is false on
the code. -/
theorem C8_swap_collision_counterexample :
    AgentContext.generateAgentId (jsStr "x") (jsStr "xx") =
      AgentContext.generateAgentId (jsStr "xx") (jsStr "x") ∧
    jsStr "x" ≠ jsStr "xx" ∧
    (AgentContext.generateAgentId (jsStr "x") (jsStr "xx")).isOk = true := by
  refine ⟨by decide, by decide, by decide⟩

/-- UTF-16 decoding distributes over append when the second part does not
start with a low surrogate: no replacement-character pairing can happen
across the boundary. -/
theorem utf16Decode_append : ∀ (a b : List Nat), headNotLowSurrogate b = true →
    utf16Decode (a ++ b) = utf16Decode a ++ utf16Decode b
  | [], _, _ => by simp [utf16Decode]
  | [u], b, hb => by
    cases b with
    | nil => simp [utf16Decode]
    | cons v b2 =>
      have hv : isLowSurrogate v = false := by
        simpa [headNotLowSurrogate] using hb
      by_cases hu : isHighSurrogate u
      · simp [utf16Decode, hu, hv]
      · by_cases hl : isLowSurrogate u
        · simp [utf16Decode, hu, hl]
        · simp [utf16Decode, hu, hl]
  | u :: v :: rest, b, hb => by
    by_cases hu : isHighSurrogate u
    · by_cases hv : isLowSurrogate v
      · have ih := utf16Decode_append rest b hb
        simp [utf16Decode, hu, hv, ih]
      · have ih := utf16Decode_append (v :: rest) b hb
        simp only [List.cons_append] at ih ⊢
        simp [utf16Decode, hu, hv, ih]
    · by_cases hl : isLowSurrogate u
      · have ih := utf16Decode_append (v :: rest) b hb
        simp only [List.cons_append] at ih ⊢
        simp [utf16Decode, hu, hl, ih]
      · have ih := utf16Decode_append (v :: rest) b hb
        simp only [List.cons_append] at ih ⊢
        simp [utf16Decode, hu, hl, ih]

/-- The `TextEncoder` model distributes over append when the second string
does not start with a low surrogate. -/
theorem textEncoderEncode_append (a b : List Nat) (hb : headNotLowSurrogate b = true) :
    textEncoderEncode (a ++ b) = textEncoderEncode a ++ textEncoderEncode b := by
  unfold textEncoderEncode
  rw [utf16Decode_append a b hb, List.map_append, List.flatten_append]

/-- The agent-context copy of `generateAgentId` computes exactly the spec's
formula on accepted inputs. -/
theorem agentContext_generateAgentId_eq (a p : JSString) (ha : a ≠ []) (hp : p ≠ []) :
    AgentContext.generateAgentId a p = .ok (specAgentIdFormula a p) := by
  unfold AgentContext.generateAgentId AgentContext.blake2b64 specAgentIdFormula
    agentIdHashInput
  simp [ha, hp]

/-- The span-processor copy of `generateAgentId` computes the spec's formula
on accepted inputs whose trimmed project id does not start with a low
surrogate (in particular, on every well-formed UTF-16 project id). -/
theorem spanProcessor_generateAgentId_eq (a p : JSString) (ha : a ≠ []) (hp : p ≠ [])
    (hs : headNotLowSurrogate (jsTrim p) = true) :
    SpanProcessor.generateAgentId a p = .ok (specAgentIdFormula a p) := by
  unfold SpanProcessor.generateAgentId SpanProcessor.blake2b64 specAgentIdFormula
    agentIdHashInput
  simp only [ha, hp, if_false]
  rw [textEncoderEncode_append _ _ hs]

/-- The BLAKE2b compression function returns eight words. -/
theorem blake2bCompress_length (h m : List Nat) (t : Nat) (last : Bool) :
    (blake2bCompress h m t last).length = 8 := by
  simp [blake2bCompress]

/-- The BLAKE2b block loop returns eight words. -/
theorem blake2bGo_length : ∀ (fuel : Nat) (h : List Nat) (t : Nat) (data : List Nat),
    (blake2bGo fuel h t data).length = 8
  | 0, h, t, data => blake2bCompress_length ..
  | fuel + 1, h, t, data => by
    unfold blake2bGo
    split
    · exact blake2bCompress_length ..
    · exact blake2bGo_length fuel ..

/-- Flattening the little-endian byte rendering of words yields eight bytes
per word. -/
theorem flatten_wordBytesLE_length (l : List Nat) :
    ((l.map wordBytesLE).flatten).length = 8 * l.length := by
  induction l with
  | nil => rfl
  | cons x xs ih =>
    simp only [List.map_cons, List.flatten_cons, List.length_append, ih, List.length_cons]
    simp [wordBytesLE]
    omega

/-- An 8-byte BLAKE2b digest has exactly eight bytes. -/
theorem blake2b_length (data : List Nat) : (blake2b data 8).length = 8 := by
  simp only [blake2b]
  rw [List.length_take, flatten_wordBytesLE_length, blake2bGo_length]
  omega

/-- Every byte of the little-endian word rendering is below 256. -/
theorem wordBytesLE_lt (w : Nat) : ∀ b ∈ wordBytesLE w, b < 256 := by
  intro b hb
  simp [wordBytesLE] at hb
  rcases hb with rfl | rfl | rfl | rfl | rfl | rfl | rfl | rfl <;> omega

/-- Every byte of a BLAKE2b digest is below 256. -/
theorem blake2b_bytes_lt (data : List Nat) (n : Nat) : ∀ b ∈ blake2b data n, b < 256 := by
  intro b hb
  simp only [blake2b] at hb
  have hb2 : b ∈ ((blake2bGo data.length
      (BLAKE2B_IV.set 0 (xor64 (lget BLAKE2B_IV 0) (0x01010000 ^^^ n))) 0 data).map
        wordBytesLE).flatten :=
    List.take_subset _ _ hb
  rw [List.mem_flatten] at hb2
  obtain ⟨l, hl, hbl⟩ := hb2
  rw [List.mem_map] at hl
  obtain ⟨w, _, rfl⟩ := hl
  exact wordBytesLE_lt w b hbl

/-- The hex digit of a value below 16 is a lowercase hex character. -/
theorem hexDigitChar_mem : ∀ n < 16, hexDigitChar n ∈ ("0123456789abcdef").data := by
  decide

/-- The character list behind `bytesToHex`. -/
theorem bytesToHex_data (bs : List Nat) :
    (bytesToHex bs).data =
      (bs.map (fun b => [hexDigitChar (b / 16), hexDigitChar (b % 16)])).flatten := rfl

/-- `bytesToHex` renders two characters per byte. -/
theorem bytesToHex_length (bs : List Nat) : (bytesToHex bs).length = 2 * bs.length := by
  show (bytesToHex bs).data.length = 2 * bs.length
  rw [bytesToHex_data]
  induction bs with
  | nil => rfl
  | cons b rest ih =>
    simp only [List.map_cons, List.flatten_cons, List.length_append, ih, List.length_cons]
    simp
    omega

/-- `bytesToHex` of bytes below 256 uses only lowercase hex characters. -/
theorem bytesToHex_chars (bs : List Nat) (h : ∀ b ∈ bs, b < 256) :
    ∀ c ∈ (bytesToHex bs).data, c ∈ ("0123456789abcdef").data := by
  intro c hc
  rw [bytesToHex_data, List.mem_flatten] at hc
  obtain ⟨l, hl, hcl⟩ := hc
  rw [List.mem_map] at hl
  obtain ⟨b, hb, rfl⟩ := hl
  have hblt := h b hb
  simp at hcl
  rcases hcl with rfl | rfl
  · exact hexDigitChar_mem _ (by omega)
  · exact hexDigitChar_mem _ (by omega)

/-- Claim C6, counterexample: at the valid (non-empty) input pair consisting
of a lone high surrogate agent name and a lone low surrogate project id, the
two copies of `generateAgentId` disagree: the agent-context copy encodes the
two strings separately (two replacement characters), while the span-processor
copy encodes their concatenation (one combined code point), so the hashed
byte strings differ; "both copies compute this same function" is false on the
code. -/
theorem C6_copies_differ_counterexample :
    SpanProcessor.generateAgentId [0xD83D] [0xDE00] ≠
      AgentContext.generateAgentId [0xD83D] [0xDE00] ∧
    (AgentContext.generateAgentId [0xD83D] [0xDE00]).isOk = true := by
  exact ⟨by decide, by decide⟩

/-- Claim C6 (amended): on every accepted input pair whose trimmed project id
does not start with a low surrogate code unit (in particular on all
well-formed UTF-16 inputs), both copies of `generateAgentId` equal the
reference definition: trim both strings, truncate the trimmed name to 255
characters if longer, concatenate the UTF-8 encodings, hash with BLAKE2b at a
fixed 8-byte output length, and render as a 16-character lowercase hex
string; identical inputs produce identical ids since the functions are pure. -/
theorem C6_generate_agent_id_refinement :
    ∀ agentName projectId : JSString, agentName ≠ [] → projectId ≠ [] →
      headNotLowSurrogate (jsTrim projectId) = true →
      AgentContext.generateAgentId agentName projectId =
        .ok (specAgentIdFormula agentName projectId) ∧
      SpanProcessor.generateAgentId agentName projectId =
        .ok (specAgentIdFormula agentName projectId) ∧
      (specAgentIdFormula agentName projectId).length = 16 ∧
      ∀ c ∈ (specAgentIdFormula agentName projectId).data, c ∈ ("0123456789abcdef").data := by
  intro a p ha hp hs
  refine ⟨agentContext_generateAgentId_eq a p ha hp,
    spanProcessor_generateAgentId_eq a p ha hp hs, ?_, ?_⟩
  · unfold specAgentIdFormula
    rw [bytesToHex_length, blake2b_length]
  · unfold specAgentIdFormula
    exact bytesToHex_chars _ (blake2b_bytes_lt _ _)

/-- Claim C6, witness: the refinement at the spec's example pair. -/
theorem C6_generate_agent_id_refinement_witness :
    AgentContext.generateAgentId (jsStr "qa_agent") (jsStr "proj-customer-support") =
      .ok (specAgentIdFormula (jsStr "qa_agent") (jsStr "proj-customer-support")) ∧
    SpanProcessor.generateAgentId (jsStr "qa_agent") (jsStr "proj-customer-support") =
      .ok (specAgentIdFormula (jsStr "qa_agent") (jsStr "proj-customer-support")) ∧
    (specAgentIdFormula (jsStr "qa_agent") (jsStr "proj-customer-support")).length = 16 ∧
    ∀ c ∈ (specAgentIdFormula (jsStr "qa_agent") (jsStr "proj-customer-support")).data,
      c ∈ ("0123456789abcdef").data :=
  C6_generate_agent_id_refinement (jsStr "qa_agent") (jsStr "proj-customer-support")
    (by decide) (by decide) (by decide)

/-- Claim C8 (amended): swapping the arguments of `generateAgentId` changes
the id for the spec's example pair, but not universally: whenever the
trim-and-truncate pipeline yields the same concatenated hash input in both
orders (as with "x" and "xx"), the two orders collide by construction. -/
theorem C8_order_sensitivity :
    (AgentContext.generateAgentId (jsStr "qa_agent") (jsStr "proj-customer-support") ≠
      AgentContext.generateAgentId (jsStr "proj-customer-support") (jsStr "qa_agent")) ∧
    ∀ a p : JSString, a ≠ [] → p ≠ [] →
      agentIdHashInput a p = agentIdHashInput p a →
      AgentContext.generateAgentId a p = AgentContext.generateAgentId p a := by
  constructor
  · decide
  · intro a p ha hp hsame
    rw [agentContext_generateAgentId_eq a p ha hp, agentContext_generateAgentId_eq p a hp ha]
    unfold specAgentIdFormula
    rw [hsame]

/-- Claim C8, witness: the collision condition holds at the concrete pair
"x" / "xx", and the theorem then yields equal ids for the two orders. -/
theorem C8_order_sensitivity_witness :
    AgentContext.generateAgentId (jsStr "x") (jsStr "xx") =
      AgentContext.generateAgentId (jsStr "xx") (jsStr "x") :=
  C8_order_sensitivity.2 (jsStr "x") (jsStr "xx") (by decide) (by decide) (by decide)

/-- Property lookup distributes over concatenated attribute lists, earlier
entries first. -/
theorem getAttr_append (l1 l2 : Attrs) (k : String) :
    getAttr (l1 ++ l2) k =
      match getAttr l1 k with
      | some v => some v
      | none => getAttr l2 k := by
  induction l1 with
  | nil => simp [getAttr]
  | cons kv rest ih =>
    obtain ⟨k', v⟩ := kv
    by_cases h : k' = k <;> simp [getAttr, h, ih]

/-- The null-dropping filter distributes over append. -/
theorem buildAttributes_append (e1 e2 : List (String × Option AttrValue)) :
    buildAttributes (e1 ++ e2) = buildAttributes e1 ++ buildAttributes e2 := by
  simp [buildAttributes, List.filterMap_append]

/-- Key distinctness transfers from the key list to the entries. -/
theorem forall_fst_ne_of_map (entries : List (String × Option AttrValue)) (k : String)
    (h : ∀ k' ∈ entries.map Prod.fst, k' ≠ k) : ∀ kv ∈ entries, kv.1 ≠ k :=
  fun kv hkv => h kv.1 (List.mem_map_of_mem _ hkv)

/-- A key absent from the entry list is absent from the built attributes. -/
theorem getAttr_buildAttributes_none (entries : List (String × Option AttrValue)) (k : String)
    (h : ∀ kv ∈ entries, kv.1 ≠ k) : getAttr (buildAttributes entries) k = none := by
  induction entries with
  | nil => rfl
  | cons kv rest ih =>
    obtain ⟨k', v?⟩ := kv
    have hk' : k' ≠ k := h (k', v?) (by simp)
    have hrest : ∀ kv ∈ rest, kv.1 ≠ k := fun kv hkv => h kv (by simp [hkv])
    cases v? with
    | none => simpa [buildAttributes, List.filterMap_cons] using ih hrest
    | some v =>
      simp only [buildAttributes, List.filterMap_cons] at ih ⊢
      simp only [getAttr, hk', if_false]
      exact ih hrest

/-- Two strings differing at an index below the first's length stay different
after appending anything to the first. -/
theorem string_append_ne_of_getElem (s k t : String) (i : Nat)
    (hi : i < s.data.length) (hne : s.data[i]? ≠ t.data[i]?) : s ++ k ≠ t := by
  intro h
  apply hne
  have hd : (s ++ k).data = t.data := congrArg String.data h
  rw [String.data_append] at hd
  rw [← hd]
  exact (List.getElem?_append_left hi).symm

/-- A flattened metadata key never collides with the prompt-linkage keys: it
starts with the metadata prefix, which differs from the prompt prefix within
the first 27 characters. -/
theorem obsMetaDotKey_ne_prompt (f : String) :
    (AntsPlatformOtelSpanAttributes.OBSERVATION_METADATA ++ "." ++ f ≠
      AntsPlatformOtelSpanAttributes.OBSERVATION_PROMPT_NAME) ∧
    (AntsPlatformOtelSpanAttributes.OBSERVATION_METADATA ++ "." ++ f ≠
      AntsPlatformOtelSpanAttributes.OBSERVATION_PROMPT_VERSION) :=
  ⟨string_append_ne_of_getElem _ f _ 26 (by decide) (by decide),
   string_append_ne_of_getElem _ f _ 26 (by decide) (by decide)⟩

/-- Every entry key produced by observation-scope metadata flattening differs
from any key that is neither the metadata key nor of the dotted metadata
form. -/
theorem flattenMeta_keys_ne (md : Option JsonValue) (k : String)
    (h1 : AntsPlatformOtelSpanAttributes.OBSERVATION_METADATA ≠ k)
    (h2 : ∀ f : String,
      AntsPlatformOtelSpanAttributes.OBSERVATION_METADATA ++ "." ++ f ≠ k) :
    ∀ kv ∈ flattenAndSerializeMetadata md "observation", kv.1 ≠ k := by
  intro kv hkv
  cases md with
  | none => simp [flattenAndSerializeMetadata] at hkv
  | some v =>
    cases v with
    | null => simp [flattenAndSerializeMetadata] at hkv
    | obj fields =>
      simp only [flattenAndSerializeMetadata, if_pos rfl, List.mem_map] at hkv
      obtain ⟨f, _, rfl⟩ := hkv
      exact h2 f.1
    | bool b =>
      simp only [flattenAndSerializeMetadata, if_pos rfl] at hkv
      split at hkv
      · split at hkv <;> simp at hkv
        obtain ⟨rfl, -⟩ := hkv
        exact h1
      · simp at hkv
    | num n =>
      simp only [flattenAndSerializeMetadata, if_pos rfl] at hkv
      split at hkv
      · split at hkv <;> simp at hkv
        obtain ⟨rfl, -⟩ := hkv
        exact h1
      · simp at hkv
    | str s =>
      simp only [flattenAndSerializeMetadata, if_pos rfl] at hkv
      split at hkv
      · split at hkv <;> simp at hkv
        obtain ⟨rfl, -⟩ := hkv
        exact h1
      · simp at hkv
    | arr xs =>
      simp only [flattenAndSerializeMetadata, if_pos rfl] at hkv
      split at hkv
      · split at hkv <;> simp at hkv
        obtain ⟨rfl, -⟩ := hkv
        exact h1
      · simp at hkv

/-- Claim C9: the prompt-linkage attributes (prompt name and prompt version)
are present in `createObservationAttributes`'s result if and only if a prompt
was supplied and is not a fallback, in which case they carry the prompt's
name and version; a fallback prompt contributes no prompt attributes. -/
theorem C9_prompt_linkage :
    ∀ (type : String) (a : ObservationAttributeFields),
      getAttr (createObservationAttributes type a)
          AntsPlatformOtelSpanAttributes.OBSERVATION_PROMPT_NAME =
        (match a.prompt with
         | some pr => if pr.isFallback then none else some (.str pr.name)
         | none => none) ∧
      getAttr (createObservationAttributes type a)
          AntsPlatformOtelSpanAttributes.OBSERVATION_PROMPT_VERSION =
        (match a.prompt with
         | some pr => if pr.isFallback then none else some (.int pr.version)
         | none => none) := by
  intro type a
  unfold createObservationAttributes
  rw [buildAttributes_append, buildAttributes_append]
  rw [getAttr_append, getAttr_append, getAttr_append, getAttr_append]
  have hfix1 : getAttr (buildAttributes
      [(AntsPlatformOtelSpanAttributes.OBSERVATION_TYPE, some (.str type)),
       (AntsPlatformOtelSpanAttributes.OBSERVATION_LEVEL, a.level.map .str),
       (AntsPlatformOtelSpanAttributes.OBSERVATION_STATUS_MESSAGE, a.statusMessage.map .str),
       (AntsPlatformOtelSpanAttributes.VERSION, a.version.map .str),
       (AntsPlatformOtelSpanAttributes.OBSERVATION_INPUT, (serialize a.input).map .str),
       (AntsPlatformOtelSpanAttributes.OBSERVATION_OUTPUT, (serialize a.output).map .str),
       (AntsPlatformOtelSpanAttributes.OBSERVATION_MODEL, a.model.map .str),
       (AntsPlatformOtelSpanAttributes.OBSERVATION_USAGE_DETAILS,
         (serialize a.usageDetails).map .str),
       (AntsPlatformOtelSpanAttributes.OBSERVATION_COST_DETAILS,
         (serialize a.costDetails).map .str),
       (AntsPlatformOtelSpanAttributes.OBSERVATION_COMPLETION_START_TIME,
         (serialize a.completionStartTime).map .str),
       (AntsPlatformOtelSpanAttributes.OBSERVATION_MODEL_PARAMETERS,
         (serialize a.modelParameters).map .str)])
      AntsPlatformOtelSpanAttributes.OBSERVATION_PROMPT_NAME = none := by
    apply getAttr_buildAttributes_none
    apply forall_fst_ne_of_map
    intro k' hk'
    simp only [List.map_cons, List.map_nil] at hk'
    fin_cases hk' <;> decide
  have hfix2 : getAttr (buildAttributes
      [(AntsPlatformOtelSpanAttributes.OBSERVATION_TYPE, some (.str type)),
       (AntsPlatformOtelSpanAttributes.OBSERVATION_LEVEL, a.level.map .str),
       (AntsPlatformOtelSpanAttributes.OBSERVATION_STATUS_MESSAGE, a.statusMessage.map .str),
       (AntsPlatformOtelSpanAttributes.VERSION, a.version.map .str),
       (AntsPlatformOtelSpanAttributes.OBSERVATION_INPUT, (serialize a.input).map .str),
       (AntsPlatformOtelSpanAttributes.OBSERVATION_OUTPUT, (serialize a.output).map .str),
       (AntsPlatformOtelSpanAttributes.OBSERVATION_MODEL, a.model.map .str),
       (AntsPlatformOtelSpanAttributes.OBSERVATION_USAGE_DETAILS,
         (serialize a.usageDetails).map .str),
       (AntsPlatformOtelSpanAttributes.OBSERVATION_COST_DETAILS,
         (serialize a.costDetails).map .str),
       (AntsPlatformOtelSpanAttributes.OBSERVATION_COMPLETION_START_TIME,
         (serialize a.completionStartTime).map .str),
       (AntsPlatformOtelSpanAttributes.OBSERVATION_MODEL_PARAMETERS,
         (serialize a.modelParameters).map .str)])
      AntsPlatformOtelSpanAttributes.OBSERVATION_PROMPT_VERSION = none := by
    apply getAttr_buildAttributes_none
    apply forall_fst_ne_of_map
    intro k' hk'
    simp only [List.map_cons, List.map_nil] at hk'
    fin_cases hk' <;> decide
  have hmeta1 : getAttr (buildAttributes (flattenAndSerializeMetadata a.metadata "observation"))
      AntsPlatformOtelSpanAttributes.OBSERVATION_PROMPT_NAME = none :=
    getAttr_buildAttributes_none _ _
      (flattenMeta_keys_ne a.metadata _ (by decide) (fun f => (obsMetaDotKey_ne_prompt f).1))
  have hmeta2 : getAttr (buildAttributes (flattenAndSerializeMetadata a.metadata "observation"))
      AntsPlatformOtelSpanAttributes.OBSERVATION_PROMPT_VERSION = none :=
    getAttr_buildAttributes_none _ _
      (flattenMeta_keys_ne a.metadata _ (by decide) (fun f => (obsMetaDotKey_ne_prompt f).2))
  rw [hfix1, hfix2, hmeta1, hmeta2]
  cases hpr : a.prompt with
  | none => simp [buildAttributes, getAttr]
  | some pr =>
    by_cases hf : pr.isFallback
    · simp [hf, buildAttributes, getAttr]
    · have hne : AntsPlatformOtelSpanAttributes.OBSERVATION_PROMPT_NAME ≠
          AntsPlatformOtelSpanAttributes.OBSERVATION_PROMPT_VERSION := by decide
      simp [hf, buildAttributes, List.filterMap_cons, getAttr, hne]

/-- Reading back the key just written. -/
theorem getAttr_setAttr_self (attrs : Attrs) (k : String) (v : AttrValue) :
    getAttr (setAttr attrs k v) k = some v := by
  induction attrs with
  | nil => simp [setAttr, getAttr]
  | cons kv rest ih =>
    obtain ⟨k', v'⟩ := kv
    by_cases h : k' = k <;> simp [setAttr, getAttr, h, ih]

/-- Writing one key leaves every other key's value unchanged. -/
theorem getAttr_setAttr_ne (attrs : Attrs) (k : String) (v : AttrValue) (k' : String)
    (h : k ≠ k') : getAttr (setAttr attrs k v) k' = getAttr attrs k' := by
  induction attrs with
  | nil => simp [setAttr, getAttr, h]
  | cons kv rest ih =>
    obtain ⟨k0, v0⟩ := kv
    by_cases h0 : k0 = k
    · subst h0
      simp [setAttr, getAttr, h]
    · by_cases h1 : k0 = k' <;> simp [setAttr, getAttr, h0, h1, ih, Ne.symm h]

/-- The mask loop body leaves every other key's value unchanged. -/
theorem maskStep_fst_getAttr_ne (p : SpanProcessorState) (acc : Attrs × List PipelineEvent)
    (k k' : String) (h : k ≠ k') :
    getAttr (maskStep p acc k).1 k' = getAttr acc.1 k' := by
  unfold maskStep
  cases hv : getAttr acc.1 k with
  | none => rfl
  | some v => simp [getAttr_setAttr_ne _ _ _ _ h]

/-- The mask loop body only appends events. -/
theorem maskStep_snd_extend (p : SpanProcessorState) (acc : Attrs × List PipelineEvent)
    (k : String) : ∃ t, (maskStep p acc k).2 = acc.2 ++ t := by
  unfold maskStep
  cases hv : getAttr acc.1 k with
  | none => exact ⟨[], by simp⟩
  | some v => exact ⟨_, rfl⟩

/-- The mask fold leaves keys outside the candidate list unchanged. -/
theorem maskFold_fst_getAttr_not_mem (p : SpanProcessorState) (ks : List String)
    (acc : Attrs × List PipelineEvent) (k : String) (hk : k ∉ ks) :
    getAttr ((ks.foldl (maskStep p) acc).1) k = getAttr acc.1 k := by
  induction ks generalizing acc with
  | nil => rfl
  | cons k1 rest ih =>
    simp only [List.mem_cons, not_or] at hk
    rw [List.foldl_cons, ih _ hk.2, maskStep_fst_getAttr_ne p acc k1 k (fun h => hk.1 h.symm)]

/-- The mask fold never creates keys. -/
theorem maskFold_fst_getAttr_none (p : SpanProcessorState) (ks : List String)
    (acc : Attrs × List PipelineEvent) (k : String) (h : getAttr acc.1 k = none) :
    getAttr ((ks.foldl (maskStep p) acc).1) k = none := by
  induction ks generalizing acc with
  | nil => exact h
  | cons k1 rest ih =>
    rw [List.foldl_cons]
    apply ih
    by_cases hk1 : k1 = k
    · subst hk1
      unfold maskStep
      rw [h]
      exact h
    · rw [maskStep_fst_getAttr_ne p acc k1 k hk1]
      exact h

/-- A present candidate value is masked exactly once by the fold. -/
theorem maskFold_fst_getAttr_mem (p : SpanProcessorState) (ks : List String)
    (acc : Attrs × List PipelineEvent) (k : String) (v : AttrValue) (hnd : ks.Nodup)
    (hk : k ∈ ks) (hv : getAttr acc.1 k = some v) :
    getAttr ((ks.foldl (maskStep p) acc).1) k = some ((applyMask p v).1) := by
  induction ks generalizing acc with
  | nil => cases hk
  | cons k1 rest ih =>
    rw [List.foldl_cons]
    by_cases heq : k1 = k
    · subst heq
      have hnotin : k1 ∉ rest := (List.nodup_cons.mp hnd).1
      rw [maskFold_fst_getAttr_not_mem p rest _ k1 hnotin]
      unfold maskStep
      rw [hv]
      simp [getAttr_setAttr_self]
    · have hk' : k ∈ rest := by
        rcases List.mem_cons.mp hk with h | h
        · exact absurd h.symm heq
        · exact h
      exact ih (maskStep p acc k1) (List.nodup_cons.mp hnd).2 hk'
        (by rw [maskStep_fst_getAttr_ne p acc k1 k heq]; exact hv)

/-- The mask fold only appends events. -/
theorem maskFold_snd_extend (p : SpanProcessorState) (ks : List String)
    (acc : Attrs × List PipelineEvent) :
    ∃ t, (ks.foldl (maskStep p) acc).2 = acc.2 ++ t := by
  induction ks generalizing acc with
  | nil => exact ⟨[], by simp⟩
  | cons k1 rest ih =>
    rw [List.foldl_cons]
    obtain ⟨t1, ht1⟩ := maskStep_snd_extend p acc k1
    obtain ⟨t2, ht2⟩ := ih (maskStep p acc k1)
    exact ⟨t1 ++ t2, by rw [ht2, ht1, List.append_assoc]⟩

/-- With a configured mask, every present candidate value is fed to the mask
function by the fold. -/
theorem maskFold_snd_invoked (p : SpanProcessorState) (ks : List String)
    (acc : Attrs × List PipelineEvent) (k : String) (v : AttrValue)
    (m : AttrValue → Except Unit AttrValue) (hm : p.mask = some m) (hnd : ks.Nodup)
    (hk : k ∈ ks) (hv : getAttr acc.1 k = some v) :
    PipelineEvent.maskInvoked v ∈ (ks.foldl (maskStep p) acc).2 := by
  induction ks generalizing acc with
  | nil => cases hk
  | cons k1 rest ih =>
    rw [List.foldl_cons]
    by_cases heq : k1 = k
    · subst heq
      obtain ⟨t, ht⟩ := maskFold_snd_extend p rest (maskStep p acc k1)
      rw [ht]
      apply List.mem_append_left
      unfold maskStep
      rw [hv]
      simp only [applyMask, hm]
      cases m v <;> simp
    · have hk' : k ∈ rest := by
        rcases List.mem_cons.mp hk with h | h
        · exact absurd h.symm heq
        · exact h
      exact ih (maskStep p acc k1) (List.nodup_cons.mp hnd).2 hk'
        (by rw [maskStep_fst_getAttr_ne p acc k1 k heq]; exact hv)

/-- The media loop body leaves every other key's value unchanged. -/
theorem mediaStep_getAttr_ne (p : SpanProcessorState) (acc : Attrs) (k k' : String)
    (h : k ≠ k') : getAttr (mediaStep p acc k) k' = getAttr acc k' := by
  unfold mediaStep
  cases hv : getAttr acc k with
  | none => rfl
  | some v => simp [getAttr_setAttr_ne _ _ _ _ h]

/-- The media fold leaves keys outside the candidate list unchanged. -/
theorem mediaFold_getAttr_not_mem (p : SpanProcessorState) (ks : List String) (acc : Attrs)
    (k : String) (hk : k ∉ ks) :
    getAttr (ks.foldl (mediaStep p) acc) k = getAttr acc k := by
  induction ks generalizing acc with
  | nil => rfl
  | cons k1 rest ih =>
    simp only [List.mem_cons, not_or] at hk
    rw [List.foldl_cons, ih _ hk.2, mediaStep_getAttr_ne p acc k1 k (fun h => hk.1 h.symm)]

/-- The whole end-of-span pipeline leaves keys outside the candidate list
unchanged (the predicate branches leave all attributes unchanged). -/
theorem processEndedSpan_fst_getAttr_not_mem (p : SpanProcessorState) (attrs : Attrs)
    (k : String) (hk : k ∉ maskCandidates) :
    getAttr ((processEndedSpan p attrs).1) k = getAttr attrs k := by
  have hrest : getAttr ((processEndedSpanRest p attrs).1) k = getAttr attrs k := by
    unfold processEndedSpanRest mediaServiceProcess applyMaskInPlace
    simp only
    rw [mediaFold_getAttr_not_mem p _ _ k hk, maskFold_fst_getAttr_not_mem p _ _ k hk]
  unfold processEndedSpan
  split
  · split
    · rfl
    · rfl
    · exact hrest
  · exact hrest

/-- Claim C3: when the externally supplied exportability predicate returns
`false` or throws, the ended span is dropped: its attributes are untouched,
the masking function is never invoked, media processing is never invoked, and
the wrapped exporter's `onEnd` is never called; a throw is logged. No error
propagates to the caller: `processEndedSpan` is a total function into a
result, never an exception. -/
theorem C3_predicate_gate :
    ∀ (p : SpanProcessorState) (pred : Attrs → Except Unit Bool) (attrs : Attrs),
      p.shouldExportSpan = some pred →
      (pred attrs = .ok false ∨ pred attrs = .error ()) →
      (processEndedSpan p attrs).1 = attrs ∧
      (∀ v, PipelineEvent.maskInvoked v ∉ (processEndedSpan p attrs).2) ∧
      PipelineEvent.mediaProcess ∉ (processEndedSpan p attrs).2 ∧
      PipelineEvent.exporterOnEnd ∉ (processEndedSpan p attrs).2 ∧
      (pred attrs = .error () →
        PipelineEvent.predicateErrorLogged ∈ (processEndedSpan p attrs).2) := by
  intro p pred attrs hp hres
  rcases hres with hres | hres <;>
    simp [processEndedSpan, hp, hres]

/-- Claim C3, witness: a throwing predicate on a concrete span: the span is
dropped with the error logged, and the configured mask is never invoked. -/
theorem C3_predicate_gate_witness :
    (processEndedSpan
        { shouldExportSpan := some (fun _ => .error ()),
          mask := some (fun _ => .error ()) }
        [(AntsPlatformOtelSpanAttributes.OBSERVATION_INPUT, .str "secret")]).1 =
      [(AntsPlatformOtelSpanAttributes.OBSERVATION_INPUT, .str "secret")] ∧
    (∀ v, PipelineEvent.maskInvoked v ∉
      (processEndedSpan
        { shouldExportSpan := some (fun _ => .error ()),
          mask := some (fun _ => .error ()) }
        [(AntsPlatformOtelSpanAttributes.OBSERVATION_INPUT, .str "secret")]).2) ∧
    PipelineEvent.mediaProcess ∉
      (processEndedSpan
        { shouldExportSpan := some (fun _ => .error ()),
          mask := some (fun _ => .error ()) }
        [(AntsPlatformOtelSpanAttributes.OBSERVATION_INPUT, .str "secret")]).2 ∧
    PipelineEvent.exporterOnEnd ∉
      (processEndedSpan
        { shouldExportSpan := some (fun _ => .error ()),
          mask := some (fun _ => .error ()) }
        [(AntsPlatformOtelSpanAttributes.OBSERVATION_INPUT, .str "secret")]).2 ∧
    ((fun (_ : Attrs) => (.error () : Except Unit Bool))
        [(AntsPlatformOtelSpanAttributes.OBSERVATION_INPUT, .str "secret")] = .error () →
      PipelineEvent.predicateErrorLogged ∈
        (processEndedSpan
          { shouldExportSpan := some (fun _ => .error ()),
            mask := some (fun _ => .error ()) }
          [(AntsPlatformOtelSpanAttributes.OBSERVATION_INPUT, .str "secret")]).2) :=
  C3_predicate_gate
    { shouldExportSpan := some (fun _ => .error ()), mask := some (fun _ => .error ()) }
    (fun _ => .error ())
    [(AntsPlatformOtelSpanAttributes.OBSERVATION_INPUT, .str "secret")]
    rfl (Or.inr rfl)

/-- Claim C4: masking is applied per maskable attribute independently; when
the mask function throws for exactly one present maskable attribute and acts
as the identity on the others, that one attribute becomes the fixed
masking-failure sentinel, every other attribute keeps its value, every other
present maskable attribute is still fed to the mask function, and the span is
still forwarded to the wrapped exporter. -/
theorem C4_mask_failure_isolation :
    ∀ (p : SpanProcessorState) (m : AttrValue → Except Unit AttrValue) (attrs : Attrs)
      (k0 : String) (v0 : AttrValue),
      p.mask = some m →
      k0 ∈ maskCandidates →
      getAttr attrs k0 = some v0 →
      m v0 = .error () →
      (∀ k v, k ∈ maskCandidates → k ≠ k0 → getAttr attrs k = some v → m v = .ok v) →
      getAttr (applyMaskInPlace p attrs).1 k0 = some (.str MASK_FAILURE_SENTINEL) ∧
      (∀ k, k ≠ k0 → getAttr (applyMaskInPlace p attrs).1 k = getAttr attrs k) ∧
      (∀ k v, k ∈ maskCandidates → k ≠ k0 → getAttr attrs k = some v →
        PipelineEvent.maskInvoked v ∈ (applyMaskInPlace p attrs).2) ∧
      (p.shouldExportSpan = none →
        PipelineEvent.exporterOnEnd ∈ (processEndedSpan p attrs).2) := by
  intro p m attrs k0 v0 hm hk0 hv0 herr hid
  have hnd : maskCandidates.Nodup := by decide
  refine ⟨?_, ?_, ?_, ?_⟩
  · rw [applyMaskInPlace, maskFold_fst_getAttr_mem p maskCandidates (attrs, []) k0 v0 hnd hk0 hv0]
    simp [applyMask, hm, herr]
  · intro k hk
    by_cases hmem : k ∈ maskCandidates
    · cases hval : getAttr attrs k with
      | none =>
        rw [applyMaskInPlace, maskFold_fst_getAttr_none p maskCandidates (attrs, []) k hval]
      | some v =>
        rw [applyMaskInPlace, maskFold_fst_getAttr_mem p maskCandidates (attrs, []) k v hnd hmem hval]
        simp [applyMask, hm, hid k v hmem hk hval]
    · rw [applyMaskInPlace, maskFold_fst_getAttr_not_mem p maskCandidates (attrs, []) k hmem]
  · intro k v hkmem hk hval
    exact maskFold_snd_invoked p maskCandidates (attrs, []) k v m hm hnd hkmem hval
  · intro hpred
    simp [processEndedSpan, hpred, processEndedSpanRest]

/-- Claim C4, witness: a concrete span with two present maskable attributes
and a mask that throws exactly on the input value: the input becomes the
sentinel, the output value survives identically and was still masked, and the
span is still forwarded. -/
theorem C4_mask_failure_isolation_witness :
    getAttr (applyMaskInPlace
        { mask := some (fun v => if v = .str "secret" then .error () else .ok v) }
        [(AntsPlatformOtelSpanAttributes.OBSERVATION_INPUT, .str "secret"),
         (AntsPlatformOtelSpanAttributes.OBSERVATION_OUTPUT, .str "out"),
         ("user.id", .str "u1")]).1
      AntsPlatformOtelSpanAttributes.OBSERVATION_INPUT =
        some (.str MASK_FAILURE_SENTINEL) ∧
    (∀ k, k ≠ AntsPlatformOtelSpanAttributes.OBSERVATION_INPUT →
      getAttr (applyMaskInPlace
        { mask := some (fun v => if v = .str "secret" then .error () else .ok v) }
        [(AntsPlatformOtelSpanAttributes.OBSERVATION_INPUT, .str "secret"),
         (AntsPlatformOtelSpanAttributes.OBSERVATION_OUTPUT, .str "out"),
         ("user.id", .str "u1")]).1 k =
      getAttr
        [(AntsPlatformOtelSpanAttributes.OBSERVATION_INPUT, .str "secret"),
         (AntsPlatformOtelSpanAttributes.OBSERVATION_OUTPUT, .str "out"),
         ("user.id", .str "u1")] k) ∧
    (∀ k v, k ∈ maskCandidates → k ≠ AntsPlatformOtelSpanAttributes.OBSERVATION_INPUT →
      getAttr
        [(AntsPlatformOtelSpanAttributes.OBSERVATION_INPUT, .str "secret"),
         (AntsPlatformOtelSpanAttributes.OBSERVATION_OUTPUT, .str "out"),
         ("user.id", .str "u1")] k = some v →
      PipelineEvent.maskInvoked v ∈ (applyMaskInPlace
        { mask := some (fun v => if v = .str "secret" then .error () else .ok v) }
        [(AntsPlatformOtelSpanAttributes.OBSERVATION_INPUT, .str "secret"),
         (AntsPlatformOtelSpanAttributes.OBSERVATION_OUTPUT, .str "out"),
         ("user.id", .str "u1")]).2) ∧
    (({ mask := some (fun v => if v = .str "secret" then .error () else .ok v) } :
        SpanProcessorState).shouldExportSpan = none →
      PipelineEvent.exporterOnEnd ∈ (processEndedSpan
        { mask := some (fun v => if v = .str "secret" then .error () else .ok v) }
        [(AntsPlatformOtelSpanAttributes.OBSERVATION_INPUT, .str "secret"),
         (AntsPlatformOtelSpanAttributes.OBSERVATION_OUTPUT, .str "out"),
         ("user.id", .str "u1")]).2) :=
  C4_mask_failure_isolation
    { mask := some (fun v => if v = .str "secret" then .error () else .ok v) }
    (fun v => if v = .str "secret" then .error () else .ok v)
    [(AntsPlatformOtelSpanAttributes.OBSERVATION_INPUT, .str "secret"),
     (AntsPlatformOtelSpanAttributes.OBSERVATION_OUTPUT, .str "out"),
     ("user.id", .str "u1")]
    AntsPlatformOtelSpanAttributes.OBSERVATION_INPUT (.str "secret")
    rfl (by decide) (by decide) (by decide)
    (by
      intro k v hkmem hk hval
      fin_cases hkmem
      · exact absurd rfl hk
      · exact Option.noConfusion hval
      · have hv : some (AttrValue.str "out") = some v := by
          rw [← hval]
          decide
        cases hv
        decide
      · exact Option.noConfusion hval
      · exact Option.noConfusion hval
      · exact Option.noConfusion hval)

/-- `setAttributes` writes, for each key, the last present value of the
record, and leaves keys without a present entry unchanged. -/
theorem getAttr_setAttributes (attrs : Attrs) (record : List (String × Option AttrValue))
    (k : String) :
    getAttr (setAttributes attrs record) k =
      match recordLookup record k with
      | some v => some v
      | none => getAttr attrs k := by
  induction record generalizing attrs with
  | nil => rfl
  | cons kv rest ih =>
    obtain ⟨k1, v?⟩ := kv
    rw [setAttributes, List.foldl_cons]
    have step : List.foldl setAttributesStep (setAttributesStep attrs (k1, v?)) rest =
        setAttributes (setAttributesStep attrs (k1, v?)) rest := rfl
    rw [step, ih]
    cases hr : recordLookup rest k with
    | some v => simp [recordLookup, hr]
    | none =>
      simp only [recordLookup, hr]
      by_cases hk1 : k1 = k
      · subst hk1
        cases v? with
        | some v => simp [setAttributesStep, getAttr_setAttr_self]
        | none => simp [setAttributesStep]
      · cases v? with
        | some v => simp [setAttributesStep, hk1, getAttr_setAttr_ne _ _ _ _ hk1]
        | none => simp [setAttributesStep, hk1]

/-- Claim C5: `onStart` stamps the environment and release attributes, and,
exactly when an agent identity is resolved at the instant the span starts,
additionally stamps the agent id, agent name, agent display-name (when set)
and project id; with no resolved identity it touches none of the agent keys.
No later processing retroactively tags a span: the agent-resolution step only
mutates processor state, and the end-of-span pipeline (under any processor
state, hence also after resolution completes) preserves the agent keys, so a
span started and ended while no agent configuration is resolved carries none
of them. -/
theorem C5_onStart_agent_stamping :
    ∀ (p p2 : SpanProcessorState) (sa : Attrs),
      (∀ cfg, p.resolvedAgentConfig = some cfg →
        getAttr (onStart p sa) AntsPlatformOtelSpanAttributes.AGENT_ID =
          some (.str cfg.agentId) ∧
        getAttr (onStart p sa) AntsPlatformOtelSpanAttributes.AGENT_NAME =
          some (.str cfg.agentName) ∧
        getAttr (onStart p sa) AntsPlatformOtelSpanAttributes.PROJECT_ID =
          some (.str cfg.projectId) ∧
        ∀ d, cfg.agentDisplayName = some d →
          getAttr (onStart p sa) AntsPlatformOtelSpanAttributes.AGENT_DISPLAY_NAME =
            some (.str d)) ∧
      (p.resolvedAgentConfig = none →
        ∀ k, k ∈ [AntsPlatformOtelSpanAttributes.AGENT_ID,
            AntsPlatformOtelSpanAttributes.AGENT_NAME,
            AntsPlatformOtelSpanAttributes.AGENT_DISPLAY_NAME,
            AntsPlatformOtelSpanAttributes.PROJECT_ID] →
          getAttr (onStart p sa) k = getAttr sa k) ∧
      (∀ e, p.environment = some e →
        getAttr (onStart p sa) AntsPlatformOtelSpanAttributes.ENVIRONMENT =
          some (.str e)) ∧
      (∀ r, p.release = some r →
        getAttr (onStart p sa) AntsPlatformOtelSpanAttributes.RELEASE = some (.str r)) ∧
      (∀ k, k ∈ [AntsPlatformOtelSpanAttributes.AGENT_ID,
          AntsPlatformOtelSpanAttributes.AGENT_NAME,
          AntsPlatformOtelSpanAttributes.AGENT_DISPLAY_NAME,
          AntsPlatformOtelSpanAttributes.PROJECT_ID] →
        getAttr ((processEndedSpan p2 (onStart p sa)).1) k =
          getAttr (onStart p sa) k) := by
  intro p p2 sa
  refine ⟨?_, ?_, ?_, ?_, ?_⟩
  · intro cfg hcfg
    refine ⟨?_, ?_, ?_, ?_⟩
    · rw [onStart, getAttr_setAttributes]
      simp [onStartAttributes, hcfg, recordLookup,
        AntsPlatformOtelSpanAttributes.ENVIRONMENT, AntsPlatformOtelSpanAttributes.RELEASE,
        AntsPlatformOtelSpanAttributes.AGENT_ID, AntsPlatformOtelSpanAttributes.AGENT_NAME,
        AntsPlatformOtelSpanAttributes.AGENT_DISPLAY_NAME,
        AntsPlatformOtelSpanAttributes.PROJECT_ID]
    · rw [onStart, getAttr_setAttributes]
      simp [onStartAttributes, hcfg, recordLookup,
        AntsPlatformOtelSpanAttributes.ENVIRONMENT, AntsPlatformOtelSpanAttributes.RELEASE,
        AntsPlatformOtelSpanAttributes.AGENT_ID, AntsPlatformOtelSpanAttributes.AGENT_NAME,
        AntsPlatformOtelSpanAttributes.AGENT_DISPLAY_NAME,
        AntsPlatformOtelSpanAttributes.PROJECT_ID]
    · rw [onStart, getAttr_setAttributes]
      simp [onStartAttributes, hcfg, recordLookup,
        AntsPlatformOtelSpanAttributes.ENVIRONMENT, AntsPlatformOtelSpanAttributes.RELEASE,
        AntsPlatformOtelSpanAttributes.AGENT_ID, AntsPlatformOtelSpanAttributes.AGENT_NAME,
        AntsPlatformOtelSpanAttributes.AGENT_DISPLAY_NAME,
        AntsPlatformOtelSpanAttributes.PROJECT_ID]
    · intro d hd
      rw [onStart, getAttr_setAttributes]
      simp [onStartAttributes, hcfg, hd, recordLookup,
        AntsPlatformOtelSpanAttributes.ENVIRONMENT, AntsPlatformOtelSpanAttributes.RELEASE,
        AntsPlatformOtelSpanAttributes.AGENT_ID, AntsPlatformOtelSpanAttributes.AGENT_NAME,
        AntsPlatformOtelSpanAttributes.AGENT_DISPLAY_NAME,
        AntsPlatformOtelSpanAttributes.PROJECT_ID]
  · intro hnone k hk
    rw [onStart, getAttr_setAttributes]
    fin_cases hk <;>
      simp [onStartAttributes, hnone, recordLookup,
        AntsPlatformOtelSpanAttributes.ENVIRONMENT, AntsPlatformOtelSpanAttributes.RELEASE,
        AntsPlatformOtelSpanAttributes.AGENT_ID, AntsPlatformOtelSpanAttributes.AGENT_NAME,
        AntsPlatformOtelSpanAttributes.AGENT_DISPLAY_NAME,
        AntsPlatformOtelSpanAttributes.PROJECT_ID]
  · intro e he
    rw [onStart, getAttr_setAttributes]
    cases hr : p.resolvedAgentConfig <;>
      simp [onStartAttributes, hr, he, recordLookup,
        AntsPlatformOtelSpanAttributes.ENVIRONMENT, AntsPlatformOtelSpanAttributes.RELEASE,
        AntsPlatformOtelSpanAttributes.AGENT_ID, AntsPlatformOtelSpanAttributes.AGENT_NAME,
        AntsPlatformOtelSpanAttributes.AGENT_DISPLAY_NAME,
        AntsPlatformOtelSpanAttributes.PROJECT_ID]
  · intro r hr2
    rw [onStart, getAttr_setAttributes]
    cases hr : p.resolvedAgentConfig <;>
      simp [onStartAttributes, hr, hr2, recordLookup,
        AntsPlatformOtelSpanAttributes.ENVIRONMENT, AntsPlatformOtelSpanAttributes.RELEASE,
        AntsPlatformOtelSpanAttributes.AGENT_ID, AntsPlatformOtelSpanAttributes.AGENT_NAME,
        AntsPlatformOtelSpanAttributes.AGENT_DISPLAY_NAME,
        AntsPlatformOtelSpanAttributes.PROJECT_ID]
  · intro k hk
    fin_cases hk <;>
      exact processEndedSpan_fst_getAttr_not_mem p2 _ _ (by decide)

/-- Claim C5, witness: at a resolved configuration the four agent keys are
stamped, at an unresolved one a fresh span keeps none of them even after the
end-of-span pipeline runs. -/
theorem C5_onStart_agent_stamping_witness :
    getAttr (onStart
        { resolvedAgentConfig := some
            { agentId := "0123456789abcdef", agentName := "qa_agent",
              agentDisplayName := some "QA Agent", projectId := "proj-1" } } [])
      AntsPlatformOtelSpanAttributes.AGENT_ID = some (.str "0123456789abcdef") ∧
    getAttr (onStart { pendingAgentConfig := true } [])
      AntsPlatformOtelSpanAttributes.AGENT_ID = getAttr ([] : Attrs)
        AntsPlatformOtelSpanAttributes.AGENT_ID ∧
    getAttr ((processEndedSpan {} (onStart { pendingAgentConfig := true } [])).1)
      AntsPlatformOtelSpanAttributes.AGENT_ID =
      getAttr (onStart { pendingAgentConfig := true } [])
        AntsPlatformOtelSpanAttributes.AGENT_ID :=
  ⟨((C5_onStart_agent_stamping
      { resolvedAgentConfig := some
          { agentId := "0123456789abcdef", agentName := "qa_agent",
            agentDisplayName := some "QA Agent", projectId := "proj-1" } } {} []).1
      { agentId := "0123456789abcdef", agentName := "qa_agent",
        agentDisplayName := some "QA Agent", projectId := "proj-1" } rfl).1,
   (C5_onStart_agent_stamping { pendingAgentConfig := true } {} []).2.1 rfl
     AntsPlatformOtelSpanAttributes.AGENT_ID (by decide),
   (C5_onStart_agent_stamping { pendingAgentConfig := true } {} []).2.2.2.2
     AntsPlatformOtelSpanAttributes.AGENT_ID (by decide)⟩

namespace FlowModel

/-- Running a concatenated trace runs the pieces in sequence. -/
theorem runTrace_append (t1 t2 : List Event) (s : ProcState) :
    runTrace s (t1 ++ t2) =
      match runTrace s t1 with
      | some s' => runTrace s' t2
      | none => none := by
  induction t1 generalizing s with
  | nil => simp [runTrace]
  | cons e rest ih =>
    rw [List.cons_append, runTrace, runTrace]
    cases hstep : step s e with
    | none => rfl
    | some s2 => exact ih s2

/-- Searching concatenated control lists searches the pieces in order. -/
theorem find?_fid_append (l1 l2 : List FlushCtl) (f : Nat) :
    (l1 ++ l2).find? (fun c => c.fid == f) =
      match l1.find? (fun c => c.fid == f) with
      | some c => some c
      | none => l2.find? (fun c => c.fid == f) := by
  induction l1 with
  | nil => simp
  | cons c rest ih =>
    by_cases hc : (c.fid == f) = true
    · simp [List.find?, hc]
    · simp only [Bool.not_eq_true] at hc
      simp [List.find?, hc, ih]

/-- Updating the stage of one call leaves the lookup of any other call
unchanged. -/
theorem find?_map_setStage_ne (l : List FlushCtl) (g f : Nat) (st : FlushStage)
    (hne : g ≠ f) :
    (l.map (fun c => if c.fid == g then { c with stage := st } else c)).find?
        (fun c => c.fid == f) =
      l.find? (fun c => c.fid == f) := by
  induction l with
  | nil => rfl
  | cons c rest ih =>
    obtain ⟨cf, cs, cst⟩ := c
    simp only [List.map_cons, List.find?]
    by_cases hg : (cf == g) = true
    · have hcg : cf = g := by simpa using hg
      have hf : (cf == f) = false := by simp [hcg, hne]
      simp only [if_pos hg, List.find?, hf]
      exact ih
    · by_cases hf : (cf == f) = true
      · simp only [if_neg hg, List.find?, hf]
      · simp only [Bool.not_eq_true] at hf
        simp only [if_neg hg, List.find?, hf]
        exact ih

/-- Updating the stage of a call found in the list updates exactly its
lookup. -/
theorem find?_map_setStage_self (l : List FlushCtl) (g : Nat) (st : FlushStage)
    (c : FlushCtl) (h : l.find? (fun c => c.fid == g) = some c) :
    (l.map (fun c => if c.fid == g then { c with stage := st } else c)).find?
        (fun c => c.fid == g) = some { c with stage := st } := by
  induction l with
  | nil => cases h
  | cons c0 rest ih =>
    obtain ⟨cf, cs, cst⟩ := c0
    simp only [List.map_cons, List.find?] at h ⊢
    by_cases hg : (cf == g) = true
    · simp only [hg] at h
      cases h
      simp [hg, List.find?]
    · simp only [Bool.not_eq_true] at hg
      simp only [hg] at h
      simpa [hg, List.find?] using ih h

end FlowModel

namespace FlowModel

/-- Lookup after `setStage` of the same call. -/
theorem findFlush_setStage_self (s : ProcState) (f : Nat) (st : FlushStage) (c : FlushCtl)
    (h : findFlush s f = some c) :
    findFlush (setStage s f st) f = some { c with stage := st } :=
  find?_map_setStage_self s.flushes f st c h

/-- Lookup after `setStage` of a different call. -/
theorem findFlush_setStage_ne (s : ProcState) (g f : Nat) (st : FlushStage) (hne : g ≠ f) :
    findFlush (setStage s g st) f = findFlush s f :=
  find?_map_setStage_ne s.flushes g f st hne

/-- Inversion of an enabled `flushCall` step. -/
theorem step_flushCall_inv (s s2 : ProcState) (f : Nat) (shut : Bool)
    (h : step s (.flushCall f shut) = some s2) :
    findFlush s f = none ∧
    s2 = { s with flushes := s.flushes ++
      [⟨f, shut,
        if s.agentConfigured then .waitAgent else .waitSpans s.pendingEndedSpans⟩] } := by
  simp only [step] at h
  cases hfind : findFlush s f with
  | some c =>
    rw [hfind] at h
    simp at h
  | none =>
    rw [hfind] at h
    simp only [Option.isSome_none, Bool.false_eq_true, if_false] at h
    exact ⟨rfl, (Option.some.inj h).symm⟩

/-- Inversion of an enabled `flushAgentDone` step. -/
theorem step_flushAgentDone_inv (s s2 : ProcState) (f : Nat)
    (h : step s (.flushAgentDone f) = some s2) :
    ∃ c, findFlush s f = some c ∧ c.stage = .waitAgent ∧ s.agentPending = false ∧
      s2 = setStage s f (.waitSpans s.pendingEndedSpans) := by
  simp only [step] at h
  split at h
  next c heq =>
    split at h
    next hcond =>
      exact ⟨c, heq, hcond.1, by simpa using hcond.2, (Option.some.inj h).symm⟩
    next => cases h
  next => cases h

/-- Inversion of an enabled `flushSpansDone` step. -/
theorem step_flushSpansDone_inv (s s2 : ProcState) (f : Nat)
    (h : step s (.flushSpansDone f) = some s2) :
    ∃ c snap, findFlush s f = some c ∧ c.stage = .waitSpans snap ∧
      (∀ id ∈ snap, id ∉ s.pendingEndedSpans) ∧ s2 = setStage s f .waitMedia := by
  simp only [step] at h
  split at h
  next c heq =>
    split at h
    next snap hst =>
      split at h
      next hall =>
        refine ⟨c, snap, heq, hst, ?_, (Option.some.inj h).symm⟩
        intro id hid
        have := List.all_eq_true.mp hall id hid
        simpa using this
      next => cases h
    next => cases h
  next => cases h

/-- Inversion of an enabled `flushMediaDone` step. -/
theorem step_flushMediaDone_inv (s s2 : ProcState) (f : Nat)
    (h : step s (.flushMediaDone f) = some s2) :
    ∃ c, findFlush s f = some c ∧ c.stage = .waitMedia ∧ s.mediaPending = [] ∧
      s2 = { setStage s f .waitExporter with
             exporterForceFlushes :=
               if c.isShutdown then s.exporterForceFlushes else s.exporterForceFlushes + 1,
             exporterShutdowns :=
               if c.isShutdown then s.exporterShutdowns + 1 else s.exporterShutdowns } := by
  simp only [step] at h
  split at h
  next c heq =>
    split at h
    next hcond => exact ⟨c, heq, hcond.1, hcond.2, (Option.some.inj h).symm⟩
    next => cases h
  next => cases h

/-- Inversion of an enabled `flushExporterDone` step. -/
theorem step_flushExporterDone_inv (s s2 : ProcState) (f : Nat)
    (h : step s (.flushExporterDone f) = some s2) :
    ∃ c, findFlush s f = some c ∧ c.stage = .waitExporter ∧ s2 = setStage s f .done := by
  simp only [step] at h
  split at h
  next c heq =>
    split at h
    next hcond => exact ⟨c, heq, hcond, (Option.some.inj h).symm⟩
    next => cases h
  next => cases h

/-- An enabled `flushExporterDone` needs the call to be awaiting the wrapped
exporter. -/
theorem step_flushExporterDone_enabled (s : ProcState) (f : Nat)
    (h : (step s (.flushExporterDone f)).isSome = true) :
    ∃ c, findFlush s f = some c ∧ c.stage = .waitExporter := by
  cases hstep : step s (.flushExporterDone f) with
  | none => rw [hstep] at h; cases h
  | some s2 =>
    obtain ⟨c, hc, hst, -⟩ := step_flushExporterDone_inv s s2 f hstep
    exact ⟨c, hc, hst⟩

/-- How one step can change the pending end-of-span set: `onEnd` appends a
fresh id, `settle` erases a present id, and every other event leaves it
unchanged. -/
theorem step_pending (s s2 : ProcState) (e : Event) (h : step s e = some s2) :
    (∃ id, e = .onEnd id ∧ id ∉ s.pendingEndedSpans ∧
      s2.pendingEndedSpans = s.pendingEndedSpans ++ [id]) ∨
    (∃ id ok, e = .settle id ok ∧ id ∈ s.pendingEndedSpans ∧
      s2.pendingEndedSpans = s.pendingEndedSpans.erase id) ∨
    s2.pendingEndedSpans = s.pendingEndedSpans := by
  cases e with
  | onEnd id =>
    left
    simp only [step] at h
    split at h
    · cases h
    · next hmem => exact ⟨id, rfl, hmem, by rw [← Option.some.inj h]⟩
  | settle id ok =>
    right; left
    simp only [step] at h
    split at h
    · next hmem => exact ⟨id, ok, rfl, hmem, by rw [← Option.some.inj h]⟩
    · cases h
  | mediaStart m =>
    right; right
    simp only [step] at h
    split at h
    · cases h
    · rw [← Option.some.inj h]
  | mediaSettle m =>
    right; right
    simp only [step] at h
    split at h
    · rw [← Option.some.inj h]
    · cases h
  | agentResolved =>
    right; right
    simp only [step] at h
    split at h
    · rw [← Option.some.inj h]
    · cases h
  | flushCall f shut =>
    right; right
    rw [(step_flushCall_inv s s2 f shut h).2]
  | flushAgentDone f =>
    right; right
    obtain ⟨c, -, -, -, rfl⟩ := step_flushAgentDone_inv s s2 f h
    rfl
  | flushSpansDone f =>
    right; right
    obtain ⟨c, snap, -, -, -, rfl⟩ := step_flushSpansDone_inv s s2 f h
    rfl
  | flushMediaDone f =>
    right; right
    obtain ⟨c, -, -, -, rfl⟩ := step_flushMediaDone_inv s s2 f h
    rfl
  | flushExporterDone f =>
    right; right
    obtain ⟨c, -, -, rfl⟩ := step_flushExporterDone_inv s s2 f h
    rfl

/-- A step by an event that does not concern flush call `f` leaves `f`'s
control block unchanged. -/
theorem step_flushes_untouched (s s2 : ProcState) (e : Event) (f : Nat)
    (h : step s e = some s2) (hnt : touchesFlush f e = false) :
    findFlush s2 f = findFlush s f := by
  cases e with
  | onEnd id =>
    simp only [step] at h
    split at h
    · cases h
    · rw [← Option.some.inj h]
      rfl
  | settle id ok =>
    simp only [step] at h
    split at h
    · rw [← Option.some.inj h]
      rfl
    · cases h
  | mediaStart m =>
    simp only [step] at h
    split at h
    · cases h
    · rw [← Option.some.inj h]
      rfl
  | mediaSettle m =>
    simp only [step] at h
    split at h
    · rw [← Option.some.inj h]
      rfl
    · cases h
  | agentResolved =>
    simp only [step] at h
    split at h
    · rw [← Option.some.inj h]
      rfl
    · cases h
  | flushCall g shut =>
    have hne : g ≠ f := by simpa [touchesFlush] using hnt
    rcases step_flushCall_inv s s2 g shut h with ⟨-, rfl⟩
    have hb : (g == f) = false := by simpa using hne
    simp only [findFlush, find?_fid_append]
    cases hl : s.flushes.find? (fun c => c.fid == f) <;> simp [List.find?, hb]
  | flushAgentDone g =>
    have hne : g ≠ f := by simpa [touchesFlush] using hnt
    obtain ⟨c, -, -, -, rfl⟩ := step_flushAgentDone_inv s s2 g h
    exact findFlush_setStage_ne s g f _ hne
  | flushSpansDone g =>
    have hne : g ≠ f := by simpa [touchesFlush] using hnt
    obtain ⟨c, snap, -, -, -, rfl⟩ := step_flushSpansDone_inv s s2 g h
    exact findFlush_setStage_ne s g f _ hne
  | flushMediaDone g =>
    have hne : g ≠ f := by simpa [touchesFlush] using hnt
    obtain ⟨c, -, -, -, rfl⟩ := step_flushMediaDone_inv s s2 g h
    exact findFlush_setStage_ne s g f _ hne
  | flushExporterDone g =>
    have hne : g ≠ f := by simpa [touchesFlush] using hnt
    obtain ⟨c, -, -, rfl⟩ := step_flushExporterDone_inv s s2 g h
    exact findFlush_setStage_ne s g f _ hne

end FlowModel

namespace FlowModel

/-- If an id was pending before a trace and is no longer pending after it,
the trace contains a settle event for it: nothing else removes pending
entries. -/
theorem settle_of_removed : ∀ (tr : List Event) (s s3 : ProcState) (id : Nat),
    runTrace s tr = some s3 → id ∈ s.pendingEndedSpans → id ∉ s3.pendingEndedSpans →
    ∃ ok, Event.settle id ok ∈ tr := by
  intro tr
  induction tr with
  | nil =>
    intro s s3 id hrun hin hout
    rw [runTrace] at hrun
    cases Option.some.inj hrun
    exact absurd hin hout
  | cons e rest ih =>
    intro s s3 id hrun hin hout
    rw [runTrace] at hrun
    cases hstep : step s e with
    | none => rw [hstep] at hrun; cases hrun
    | some s2 =>
      rw [hstep] at hrun
      by_cases hid2 : id ∈ s2.pendingEndedSpans
      · obtain ⟨ok, hok⟩ := ih s2 s3 id hrun hid2 hout
        exact ⟨ok, List.mem_cons_of_mem _ hok⟩
      · rcases step_pending s s2 e hstep with ⟨j, rfl, hj, hpend⟩ | ⟨j, ok, rfl, hjmem, hpend⟩ |
          hpend
        · exfalso
          apply hid2
          rw [hpend]
          exact List.mem_append_left _ hin
        · by_cases hij : id = j
          · subst hij
            exact ⟨ok, List.mem_cons_self _ _⟩
          · exfalso
            apply hid2
            rw [hpend]
            exact (List.mem_erase_of_ne hij).mpr hin
        · exfalso
          apply hid2
          rw [hpend]
          exact hin

/-- Phase lemma for a call awaiting `mediaService.flush()`: any run that ends
with the call awaiting the wrapped exporter passes through a `flushMediaDone`
event, at which point the upload ledger is empty; the call's `isShutdown`
flag is preserved up to that point. -/
theorem phase_waitMedia : ∀ (tr : List Event) (s s3 : ProcState) (f : Nat) (c c3 : FlushCtl),
    runTrace s tr = some s3 →
    findFlush s f = some c → c.stage = .waitMedia →
    findFlush s3 f = some c3 → c3.stage = .waitExporter →
    ∃ m2 m3 sC sD, tr = m2 ++ .flushMediaDone f :: m3 ∧
      runTrace s m2 = some sC ∧
      (∃ cC, findFlush sC f = some cC ∧ cC.stage = .waitMedia ∧
        cC.isShutdown = c.isShutdown) ∧
      sC.mediaPending = [] ∧
      step sC (.flushMediaDone f) = some sD ∧ runTrace sD m3 = some s3 := by
  intro tr
  induction tr with
  | nil =>
    intro s s3 f c c3 hrun hc hst hc3 hst3
    rw [runTrace] at hrun
    cases Option.some.inj hrun
    rw [hc] at hc3
    cases Option.some.inj hc3
    rw [hst] at hst3
    cases hst3
  | cons e rest ih =>
    intro s s3 f c c3 hrun hc hst hc3 hst3
    rw [runTrace] at hrun
    cases hstep : step s e with
    | none => rw [hstep] at hrun; cases hrun
    | some s2 =>
      rw [hstep] at hrun
      by_cases htouch : touchesFlush f e = true
      · cases e with
        | onEnd id => simp [touchesFlush] at htouch
        | settle id ok => simp [touchesFlush] at htouch
        | mediaStart m => simp [touchesFlush] at htouch
        | mediaSettle m => simp [touchesFlush] at htouch
        | agentResolved => simp [touchesFlush] at htouch
        | flushCall g shut =>
          have hg : g = f := by simpa [touchesFlush] using htouch
          subst hg
          obtain ⟨hnone, -⟩ := step_flushCall_inv s s2 g shut hstep
          rw [hnone] at hc
          cases hc
        | flushAgentDone g =>
          have hg : g = f := by simpa [touchesFlush] using htouch
          subst hg
          obtain ⟨c', hc', hst', -, -⟩ := step_flushAgentDone_inv s s2 g hstep
          rw [hc] at hc'
          cases Option.some.inj hc'
          rw [hst] at hst'
          cases hst'
        | flushSpansDone g =>
          have hg : g = f := by simpa [touchesFlush] using htouch
          subst hg
          obtain ⟨c', snap, hc', hst', -, -⟩ := step_flushSpansDone_inv s s2 g hstep
          rw [hc] at hc'
          cases Option.some.inj hc'
          rw [hst] at hst'
          cases hst'
        | flushMediaDone g =>
          have hg : g = f := by simpa [touchesFlush] using htouch
          subst hg
          obtain ⟨c', hc', -, hmp, -⟩ := step_flushMediaDone_inv s s2 g hstep
          exact ⟨[], rest, s, s2, rfl, rfl, ⟨c, hc, hst, rfl⟩, hmp, hstep, hrun⟩
        | flushExporterDone g =>
          have hg : g = f := by simpa [touchesFlush] using htouch
          subst hg
          obtain ⟨c', hc', hst', -⟩ := step_flushExporterDone_inv s s2 g hstep
          rw [hc] at hc'
          cases Option.some.inj hc'
          rw [hst] at hst'
          cases hst'
      · have hff : findFlush s2 f = some c := by
          rw [step_flushes_untouched s s2 e f hstep (by simpa using htouch)]
          exact hc
        obtain ⟨m2, m3, sC, sD, hsplit, hrunC, hcC, hmp, hstepD, hrunD⟩ :=
          ih s2 s3 f c c3 hrun hff hst hc3 hst3
        refine ⟨e :: m2, m3, sC, sD, by simp [hsplit], ?_, hcC, hmp, hstepD, hrunD⟩
        rw [runTrace, hstep]
        exact hrunC

end FlowModel

namespace FlowModel

/-- Phase lemma for a call awaiting `Promise.all` of its snapshot: any run
that ends with the call awaiting the wrapped exporter passes through a
`flushSpansDone` event, at which point every snapshot member has left the
pending set; the snapshot and the `isShutdown` flag are preserved up to that
point. -/
theorem phase_waitSpans : ∀ (tr : List Event) (s s3 : ProcState) (f : Nat)
    (c c3 : FlushCtl) (snap : List Nat),
    runTrace s tr = some s3 →
    findFlush s f = some c → c.stage = .waitSpans snap →
    findFlush s3 f = some c3 → c3.stage = .waitExporter →
    ∃ m1 rest2 sA sB, tr = m1 ++ .flushSpansDone f :: rest2 ∧
      runTrace s m1 = some sA ∧
      (∃ cA, findFlush sA f = some cA ∧ cA.stage = .waitSpans snap ∧
        cA.isShutdown = c.isShutdown) ∧
      (∀ id ∈ snap, id ∉ sA.pendingEndedSpans) ∧
      step sA (.flushSpansDone f) = some sB ∧ runTrace sB rest2 = some s3 := by
  intro tr
  induction tr with
  | nil =>
    intro s s3 f c c3 snap hrun hc hst hc3 hst3
    rw [runTrace] at hrun
    cases Option.some.inj hrun
    rw [hc] at hc3
    cases Option.some.inj hc3
    rw [hst] at hst3
    cases hst3
  | cons e rest ih =>
    intro s s3 f c c3 snap hrun hc hst hc3 hst3
    rw [runTrace] at hrun
    cases hstep : step s e with
    | none => rw [hstep] at hrun; cases hrun
    | some s2 =>
      rw [hstep] at hrun
      by_cases htouch : touchesFlush f e = true
      · cases e with
        | onEnd id => simp [touchesFlush] at htouch
        | settle id ok => simp [touchesFlush] at htouch
        | mediaStart m => simp [touchesFlush] at htouch
        | mediaSettle m => simp [touchesFlush] at htouch
        | agentResolved => simp [touchesFlush] at htouch
        | flushCall g shut =>
          have hg : g = f := by simpa [touchesFlush] using htouch
          subst hg
          obtain ⟨hnone, -⟩ := step_flushCall_inv s s2 g shut hstep
          rw [hnone] at hc
          cases hc
        | flushAgentDone g =>
          have hg : g = f := by simpa [touchesFlush] using htouch
          subst hg
          obtain ⟨c', hc', hst', -, -⟩ := step_flushAgentDone_inv s s2 g hstep
          rw [hc] at hc'
          cases Option.some.inj hc'
          rw [hst] at hst'
          cases hst'
        | flushSpansDone g =>
          have hg : g = f := by simpa [touchesFlush] using htouch
          subst hg
          obtain ⟨c', snap', hc', hst', hdisj, -⟩ := step_flushSpansDone_inv s s2 g hstep
          rw [hc] at hc'
          cases Option.some.inj hc'
          rw [hst] at hst'
          cases FlushStage.waitSpans.inj hst'
          exact ⟨[], rest, s, s2, rfl, rfl, ⟨c, hc, hst, rfl⟩, hdisj, hstep, hrun⟩
        | flushMediaDone g =>
          have hg : g = f := by simpa [touchesFlush] using htouch
          subst hg
          obtain ⟨c', hc', hst', -, -⟩ := step_flushMediaDone_inv s s2 g hstep
          rw [hc] at hc'
          cases Option.some.inj hc'
          rw [hst] at hst'
          cases hst'
        | flushExporterDone g =>
          have hg : g = f := by simpa [touchesFlush] using htouch
          subst hg
          obtain ⟨c', hc', hst', -⟩ := step_flushExporterDone_inv s s2 g hstep
          rw [hc] at hc'
          cases Option.some.inj hc'
          rw [hst] at hst'
          cases hst'
      · have hff : findFlush s2 f = some c := by
          rw [step_flushes_untouched s s2 e f hstep (by simpa using htouch)]
          exact hc
        obtain ⟨m1, rest2, sA, sB, hsplit, hrunA, hcA, hdisj, hstepB, hrunB⟩ :=
          ih s2 s3 f c c3 snap hrun hff hst hc3 hst3
        refine ⟨e :: m1, rest2, sA, sB, by simp [hsplit], ?_, hcA, hdisj, hstepB, hrunB⟩
        rw [runTrace, hstep]
        exact hrunA

/-- Phase lemma for a call awaiting the agent-configuration promise: any run
that ends with the call awaiting the wrapped exporter passes through a
`flushAgentDone` event, at which point the snapshot of the then-pending
end-of-span set is taken. -/
theorem phase_waitAgent : ∀ (tr : List Event) (s s3 : ProcState) (f : Nat)
    (c c3 : FlushCtl),
    runTrace s tr = some s3 →
    findFlush s f = some c → c.stage = .waitAgent →
    findFlush s3 f = some c3 → c3.stage = .waitExporter →
    ∃ m0 rest2 sE sF, tr = m0 ++ .flushAgentDone f :: rest2 ∧
      runTrace s m0 = some sE ∧
      (∃ cE, findFlush sE f = some cE ∧ cE.stage = .waitAgent ∧
        cE.isShutdown = c.isShutdown) ∧
      step sE (.flushAgentDone f) = some sF ∧
      sF = setStage sE f (.waitSpans sE.pendingEndedSpans) ∧
      runTrace sF rest2 = some s3 := by
  intro tr
  induction tr with
  | nil =>
    intro s s3 f c c3 hrun hc hst hc3 hst3
    rw [runTrace] at hrun
    cases Option.some.inj hrun
    rw [hc] at hc3
    cases Option.some.inj hc3
    rw [hst] at hst3
    cases hst3
  | cons e rest ih =>
    intro s s3 f c c3 hrun hc hst hc3 hst3
    rw [runTrace] at hrun
    cases hstep : step s e with
    | none => rw [hstep] at hrun; cases hrun
    | some s2 =>
      rw [hstep] at hrun
      by_cases htouch : touchesFlush f e = true
      · cases e with
        | onEnd id => simp [touchesFlush] at htouch
        | settle id ok => simp [touchesFlush] at htouch
        | mediaStart m => simp [touchesFlush] at htouch
        | mediaSettle m => simp [touchesFlush] at htouch
        | agentResolved => simp [touchesFlush] at htouch
        | flushCall g shut =>
          have hg : g = f := by simpa [touchesFlush] using htouch
          subst hg
          obtain ⟨hnone, -⟩ := step_flushCall_inv s s2 g shut hstep
          rw [hnone] at hc
          cases hc
        | flushAgentDone g =>
          have hg : g = f := by simpa [touchesFlush] using htouch
          subst hg
          obtain ⟨c', hc', hst', -, hs2⟩ := step_flushAgentDone_inv s s2 g hstep
          exact ⟨[], rest, s, s2, rfl, rfl, ⟨c, hc, hst, rfl⟩, hstep, hs2, hrun⟩
        | flushSpansDone g =>
          have hg : g = f := by simpa [touchesFlush] using htouch
          subst hg
          obtain ⟨c', snap', hc', hst', -, -⟩ := step_flushSpansDone_inv s s2 g hstep
          rw [hc] at hc'
          cases Option.some.inj hc'
          rw [hst] at hst'
          cases hst'
        | flushMediaDone g =>
          have hg : g = f := by simpa [touchesFlush] using htouch
          subst hg
          obtain ⟨c', hc', hst', -, -⟩ := step_flushMediaDone_inv s s2 g hstep
          rw [hc] at hc'
          cases Option.some.inj hc'
          rw [hst] at hst'
          cases hst'
        | flushExporterDone g =>
          have hg : g = f := by simpa [touchesFlush] using htouch
          subst hg
          obtain ⟨c', hc', hst', -⟩ := step_flushExporterDone_inv s s2 g hstep
          rw [hc] at hc'
          cases Option.some.inj hc'
          rw [hst] at hst'
          cases hst'
      · have hff : findFlush s2 f = some c := by
          rw [step_flushes_untouched s s2 e f hstep (by simpa using htouch)]
          exact hc
        obtain ⟨m0, rest2, sE, sF, hsplit, hrunE, hcE, hstepF, hsF, hrunF⟩ :=
          ih s2 s3 f c c3 hrun hff hst hc3 hst3
        refine ⟨e :: m0, rest2, sE, sF, by simp [hsplit], ?_, hcE, hstepF, hsF, hrunF⟩
        rw [runTrace, hstep]
        exact hrunE

end FlowModel

namespace FlowModel

/-- Composing a run with a known prefix result. -/
theorem runTrace_append_some (t1 t2 : List Event) (s s' : ProcState)
    (h : runTrace s t1 = some s') : runTrace s (t1 ++ t2) = runTrace s' t2 := by
  rw [runTrace_append, h]

/-- Composing a run with a known first step. -/
theorem runTrace_cons_some (e : Event) (t : List Event) (s s2 : ProcState)
    (h : step s e = some s2) : runTrace s (e :: t) = runTrace s2 t := by
  rw [runTrace, h]

end FlowModel

/-- Claim C1: a `forceFlush`/`shutdown` call that returns (its
`flushExporterDone`) first saw, in order, every end-of-span operation pending
at the time of the call settle, then `mediaService.flush()` complete on an
empty upload ledger, then the delegation to the wrapped exporter's
`forceFlush` (for `shutdown`, its `shutdown`, releasing the exporter);
operations started after the call are excluded from the wait (second
conjunct: a concrete run returns while a later-started operation is still
pending); and the call is safe to make multiple times and concurrently (third
conjunct: a concrete run with an overlapping `forceFlush` and `shutdown`,
both of which complete). -/
theorem C1_flush_await_semantics :
    (∀ (s1 s2 s3 : FlowModel.ProcState) (mid : List FlowModel.Event) (f : Nat) (shut : Bool),
      FlowModel.step s1 (.flushCall f shut) = some s2 →
      FlowModel.runTrace s2 mid = some s3 →
      (FlowModel.step s3 (.flushExporterDone f)).isSome = true →
      ∃ m1 m2 m3 sC sD,
        mid = m1 ++ .flushSpansDone f :: m2 ++ .flushMediaDone f :: m3 ∧
        (∀ id ∈ s2.pendingEndedSpans, ∃ ok, FlowModel.Event.settle id ok ∈ m1) ∧
        FlowModel.runTrace s2 (m1 ++ .flushSpansDone f :: m2) = some sC ∧
        sC.mediaPending = [] ∧
        FlowModel.step sC (.flushMediaDone f) = some sD ∧
        (if shut then
          sD.exporterShutdowns = sC.exporterShutdowns + 1 ∧
          sD.exporterForceFlushes = sC.exporterForceFlushes
         else
          sD.exporterForceFlushes = sC.exporterForceFlushes + 1 ∧
          sD.exporterShutdowns = sC.exporterShutdowns)) ∧
    (∃ sEnd : FlowModel.ProcState,
      FlowModel.runTrace {} [.flushCall 0 false, .onEnd 7, .flushSpansDone 0,
        .flushMediaDone 0, .flushExporterDone 0] = some sEnd ∧
      7 ∈ sEnd.pendingEndedSpans ∧
      FlowModel.findFlush sEnd 0 = some ⟨0, false, .done⟩) ∧
    (∃ sEnd : FlowModel.ProcState,
      FlowModel.runTrace { pendingEndedSpans := [1] }
        [.flushCall 0 false, .flushCall 1 true, .settle 1 true, .flushSpansDone 0,
         .flushSpansDone 1, .flushMediaDone 0, .flushMediaDone 1,
         .flushExporterDone 0, .flushExporterDone 1] = some sEnd ∧
      FlowModel.findFlush sEnd 0 = some ⟨0, false, .done⟩ ∧
      FlowModel.findFlush sEnd 1 = some ⟨1, true, .done⟩ ∧
      sEnd.exporterForceFlushes = 1 ∧ sEnd.exporterShutdowns = 1) := by
  refine ⟨?_, ?_, ?_⟩
  · intro s1 s2 s3 mid f shut hcall hrun hdone
    obtain ⟨hnone, hs2⟩ := FlowModel.step_flushCall_inv s1 s2 f shut hcall
    have hpend2 : s2.pendingEndedSpans = s1.pendingEndedSpans := by rw [hs2]
    have hc2 : FlowModel.findFlush s2 f = some ⟨f, shut,
        if s1.agentConfigured then .waitAgent else .waitSpans s1.pendingEndedSpans⟩ := by
      rw [hs2]
      simp only [FlowModel.findFlush]
      rw [FlowModel.find?_fid_append]
      have hn2 : s1.flushes.find? (fun c => c.fid == f) = none := hnone
      rw [hn2]
      simp [List.find?]
    obtain ⟨c3, hc3, hst3⟩ := FlowModel.step_flushExporterDone_enabled s3 f hdone
    by_cases hagent : s1.agentConfigured = true
    · rw [if_pos hagent] at hc2
      obtain ⟨m0, rest2, sE, sF, hsplit, hrunE, ⟨cE, hcE, hstE, hshE⟩, hstepF, hsF, hrunF⟩ :=
        FlowModel.phase_waitAgent mid s2 s3 f _ c3 hrun hc2 rfl hc3 hst3
      have hcF : FlowModel.findFlush sF f =
          some { cE with stage := .waitSpans sE.pendingEndedSpans } := by
        rw [hsF]
        exact FlowModel.findFlush_setStage_self sE f _ cE hcE
      obtain ⟨m1', rest3, sA, sB, hsplit2, hrunA, ⟨cA, hcA, hstA, hshA⟩, hdisj, hstepB, hrunB⟩ :=
        FlowModel.phase_waitSpans rest2 sF s3 f _ c3 sE.pendingEndedSpans hrunF hcF rfl hc3 hst3
      obtain ⟨cA', snapA, hcA', hstA', hdisjA, hsB⟩ :=
        FlowModel.step_flushSpansDone_inv sA sB f hstepB
      have hcB : FlowModel.findFlush sB f = some { cA with stage := .waitMedia } := by
        rw [hsB]
        exact FlowModel.findFlush_setStage_self sA f _ cA hcA
      obtain ⟨m2', m3', sC, sD, hsplit3, hrunC, ⟨cC, hcC, hstC, hshC⟩, hmp, hstepD, hrunD⟩ :=
        FlowModel.phase_waitMedia rest3 sB s3 f _ c3 hrunB hcB rfl hc3 hst3
      have hshut : cC.isShutdown = shut := by
        rw [hshC, hshA, hshE]
      refine ⟨m0 ++ .flushAgentDone f :: m1', m2', m3', sC, sD, ?_, ?_, ?_, hmp, hstepD, ?_⟩
      · rw [hsplit, hsplit2, hsplit3]
        simp
      · intro id hid
        by_cases hidE : id ∈ sE.pendingEndedSpans
        · have hidF : id ∈ sF.pendingEndedSpans := by
            rw [hsF]
            exact hidE
          obtain ⟨ok, hok⟩ :=
            FlowModel.settle_of_removed m1' sF sA id hrunA hidF (hdisj id hidE)
          exact ⟨ok, by simp [hok]⟩
        · obtain ⟨ok, hok⟩ := FlowModel.settle_of_removed m0 s2 sE id hrunE hid hidE
          exact ⟨ok, by simp [hok]⟩
      · have hshape : (m0 ++ .flushAgentDone f :: m1') ++ .flushSpansDone f :: m2' =
            m0 ++ .flushAgentDone f :: (m1' ++ .flushSpansDone f :: m2') := by simp
        rw [hshape, FlowModel.runTrace_append_some _ _ _ _ hrunE,
          FlowModel.runTrace_cons_some _ _ _ _ hstepF,
          FlowModel.runTrace_append_some _ _ _ _ hrunA,
          FlowModel.runTrace_cons_some _ _ _ _ hstepB]
        exact hrunC
      · obtain ⟨cC', hcC', -, -, hsD⟩ := FlowModel.step_flushMediaDone_inv sC sD f hstepD
        rw [hcC] at hcC'
        cases Option.some.inj hcC'
        rw [hsD]
        cases hb : shut with
        | true => rw [hshut, hb]; simp [FlowModel.setStage]
        | false => rw [hshut, hb]; simp [FlowModel.setStage]
    · rw [if_neg hagent] at hc2
      obtain ⟨m1', rest3, sA, sB, hsplit2, hrunA, ⟨cA, hcA, hstA, hshA⟩, hdisj, hstepB, hrunB⟩ :=
        FlowModel.phase_waitSpans mid s2 s3 f _ c3 s1.pendingEndedSpans hrun hc2 rfl hc3 hst3
      obtain ⟨cA', snapA, hcA', hstA', hdisjA, hsB⟩ :=
        FlowModel.step_flushSpansDone_inv sA sB f hstepB
      have hcB : FlowModel.findFlush sB f = some { cA with stage := .waitMedia } := by
        rw [hsB]
        exact FlowModel.findFlush_setStage_self sA f _ cA hcA
      obtain ⟨m2', m3', sC, sD, hsplit3, hrunC, ⟨cC, hcC, hstC, hshC⟩, hmp, hstepD, hrunD⟩ :=
        FlowModel.phase_waitMedia rest3 sB s3 f _ c3 hrunB hcB rfl hc3 hst3
      have hshut : cC.isShutdown = shut := by
        rw [hshC, hshA]
      refine ⟨m1', m2', m3', sC, sD, ?_, ?_, ?_, hmp, hstepD, ?_⟩
      · rw [hsplit2, hsplit3]
        simp
      · intro id hid
        rw [hpend2] at hid
        obtain ⟨ok, hok⟩ := FlowModel.settle_of_removed m1' s2 sA id hrunA
          (by rw [hpend2]; exact hid) (hdisj id hid)
        exact ⟨ok, hok⟩
      · rw [FlowModel.runTrace_append_some _ _ _ _ hrunA,
          FlowModel.runTrace_cons_some _ _ _ _ hstepB]
        exact hrunC
      · obtain ⟨cC', hcC', -, -, hsD⟩ := FlowModel.step_flushMediaDone_inv sC sD f hstepD
        rw [hcC] at hcC'
        cases Option.some.inj hcC'
        rw [hsD]
        cases hb : shut with
        | true => rw [hshut, hb]; simp [FlowModel.setStage]
        | false => rw [hshut, hb]; simp [FlowModel.setStage]
  · exact ⟨⟨[7], [], false, false, [⟨0, false, .done⟩], 0, 1, 0⟩,
      by decide, by decide, by decide⟩
  · exact ⟨⟨[], [], false, false, [⟨0, false, .done⟩, ⟨1, true, .done⟩], 0, 1, 1⟩,
      by decide, by decide, by decide, by decide, by decide⟩

/-- Claim C1, witness: the await semantics applied to a concrete run with one
operation pending at the call. -/
theorem C1_flush_await_semantics_witness :
    ∃ m1 m2 m3 sC sD,
      [FlowModel.Event.settle 3 true, FlowModel.Event.flushSpansDone 0,
        FlowModel.Event.flushMediaDone 0] =
        m1 ++ .flushSpansDone 0 :: m2 ++ .flushMediaDone 0 :: m3 ∧
      (∀ id ∈ (⟨[3], [], false, false, [⟨0, false, .waitSpans [3]⟩], 0, 0, 0⟩ :
          FlowModel.ProcState).pendingEndedSpans,
        ∃ ok, FlowModel.Event.settle id ok ∈ m1) ∧
      FlowModel.runTrace (⟨[3], [], false, false, [⟨0, false, .waitSpans [3]⟩], 0, 0, 0⟩ :
          FlowModel.ProcState)
        (m1 ++ .flushSpansDone 0 :: m2) = some sC ∧
      sC.mediaPending = [] ∧
      FlowModel.step sC (.flushMediaDone 0) = some sD ∧
      (if false then
        sD.exporterShutdowns = sC.exporterShutdowns + 1 ∧
        sD.exporterForceFlushes = sC.exporterForceFlushes
       else
        sD.exporterForceFlushes = sC.exporterForceFlushes + 1 ∧
        sD.exporterShutdowns = sC.exporterShutdowns) :=
  C1_flush_await_semantics.1
    ⟨[3], [], false, false, [], 0, 0, 0⟩
    ⟨[3], [], false, false, [⟨0, false, .waitSpans [3]⟩], 0, 0, 0⟩
    ⟨[], [], false, false, [⟨0, false, .waitExporter⟩], 0, 1, 0⟩
    [.settle 3 true, .flushSpansDone 0, .flushMediaDone 0] 0 false
    (by decide) (by decide) (by decide)

/-- Claim C2: the pending-operation set gains exactly one entry when a span's
`onEnd` begins processing (the freshly created promise), and loses exactly
that entry when the processing settles, whether it fulfilled or rejected; a
rejection is caught and logged (the error counter grows) and the entry is
still removed, and in neither case does anything escape to the caller of
`onEnd`: the settle step is enabled and leaves the rest of the state (flushes,
media ledger) untouched for both outcomes. -/
theorem C2_pending_operation_tracking :
    (∀ (s : FlowModel.ProcState) (id : Nat) (s2 : FlowModel.ProcState),
      FlowModel.step s (.onEnd id) = some s2 →
      s2.pendingEndedSpans = s.pendingEndedSpans ++ [id] ∧
      s2.pendingEndedSpans.length = s.pendingEndedSpans.length + 1) ∧
    (∀ (s : FlowModel.ProcState) (id : Nat) (ok : Bool),
      id ∈ s.pendingEndedSpans →
      ∃ s2, FlowModel.step s (.settle id ok) = some s2 ∧
        s2.pendingEndedSpans = s.pendingEndedSpans.erase id ∧
        s2.errorsLogged = (if ok then s.errorsLogged else s.errorsLogged + 1) ∧
        s2.flushes = s.flushes ∧ s2.mediaPending = s.mediaPending) := by
  constructor
  · intro s id s2 hstep
    simp only [FlowModel.step] at hstep
    split at hstep
    · cases hstep
    · rw [← Option.some.inj hstep]
      simp
  · intro s id ok hmem
    simp only [FlowModel.step]
    rw [if_pos hmem]
    exact ⟨_, rfl, rfl, rfl, rfl, rfl⟩

/-- Claim C2, witness: the tracking at a concrete state: `onEnd 5` on an
empty set adds the entry, and a rejecting settle on `[5]` removes it while
logging the error. -/
theorem C2_pending_operation_tracking_witness :
    ((⟨[5], [], false, false, [], 0, 0, 0⟩ : FlowModel.ProcState).pendingEndedSpans =
        (⟨[], [], false, false, [], 0, 0, 0⟩ : FlowModel.ProcState).pendingEndedSpans ++ [5] ∧
      (⟨[5], [], false, false, [], 0, 0, 0⟩ :
          FlowModel.ProcState).pendingEndedSpans.length =
        (⟨[], [], false, false, [], 0, 0, 0⟩ :
          FlowModel.ProcState).pendingEndedSpans.length + 1) ∧
    (∃ s2, FlowModel.step (⟨[5], [], false, false, [], 0, 0, 0⟩ : FlowModel.ProcState)
        (.settle 5 false) = some s2 ∧
      s2.pendingEndedSpans =
        (⟨[5], [], false, false, [], 0, 0, 0⟩ :
          FlowModel.ProcState).pendingEndedSpans.erase 5 ∧
      s2.errorsLogged = (if false then
          (⟨[5], [], false, false, [], 0, 0, 0⟩ : FlowModel.ProcState).errorsLogged
        else
          (⟨[5], [], false, false, [], 0, 0, 0⟩ : FlowModel.ProcState).errorsLogged + 1) ∧
      s2.flushes = (⟨[5], [], false, false, [], 0, 0, 0⟩ : FlowModel.ProcState).flushes ∧
      s2.mediaPending =
        (⟨[5], [], false, false, [], 0, 0, 0⟩ : FlowModel.ProcState).mediaPending) :=
  ⟨C2_pending_operation_tracking.1 ⟨[], [], false, false, [], 0, 0, 0⟩ 5
      ⟨[5], [], false, false, [], 0, 0, 0⟩ (by decide),
   C2_pending_operation_tracking.2 ⟨[5], [], false, false, [], 0, 0, 0⟩ 5 false (by decide)⟩
